import Mathlib

/-!
Verification of the jenVEK procedural SVG generation engine.

This file gives a shallow embedding, in Lean 4, of the parts of the
jenVEK-node sources that the checked specification claims talk about:

* `public/js/modules/utils.js` — the path serializer
  (`pointsToPathString`, `pointsToCubicBezierString`) and the randomness
  utilities (`secureRandom`, `random`, `randomInt`, `randomChoice`);
* `public/js/modules/colorUtils.js` (shipped inside `main.js`) —
  `getColorPalette`, `getRandomFill`, `createPatternFill`;
* `public/js/modules/generator.js` — the seeding logic, the layer
  parameter decay and the try/catch/finally shape of `generateSVG`;
* `public/js/modules/patterns/recursive.js`, `QuadTree.js`, `rose.js`
  and `Recaman.js` — the pattern strategies named by the claims.

JavaScript numbers are modelled as rationals (`ℚ`), with `Math.floor`,
`Math.round`, `Math.max`/`Math.min` made explicit.  Calls to the host's
nondeterministic randomness (`crypto.getRandomValues` reached through
`secureRandom`) and to the ambient `Math.random` are modelled by two
explicit streams `ℕ → ℚ` of draw results together with a threaded index,
so that one generation pass is a pure function of its inputs and of the
draws the host supplies.  Transcendental host functions (`Math.cos`,
`Math.sin`) and the float constant `Math.PI` are passed in as explicit
parameters: the claims checked here never depend on their values.
-/

namespace Jenvek

/-! ## JavaScript numeric primitives -/

/-- Model of JavaScript `Math.floor` on a rational (`Rat.floor`, which is
definitionally the `Int.floor` of `ℚ` and, unlike the typeclass
projection, evaluates inside `decide`). -/
def jsFloor (q : ℚ) : ℤ := Rat.floor q

theorem jsFloor_eq_floor (q : ℚ) : jsFloor q = ⌊q⌋ := rfl

/-- Model of JavaScript `Math.round` (round half towards +∞). -/
def jsRound (q : ℚ) : ℤ := jsFloor (q + 1/2)

/-- Model of JavaScript `Math.abs`. -/
def jsAbs (q : ℚ) : ℚ := |q|

/-! ## Decimal rendering

`utils.js` builds path strings with `x.toFixed(2)`.  The Lean rendering
below produces the decimal digits of the value rounded to two places
(ECMA-262 `toFixed` picks the larger candidate on ties, i.e. rounds the
scaled value half towards +∞).  The theorems about command counts only
use the fact that the rendered text consists of digits, `-` and `.`,
which holds of `toFixed` output as well. -/

/-- Decimal digit character for `n % 10`. -/
def decDigit (n : ℕ) : Char := Char.ofNat (48 + n % 10)

/-- Decimal digits accumulator: prepends the digits of `n` (most
significant first) to `acc`.  The fuel argument only serves structural
recursion; `n + 1` units always suffice since `n` shrinks by a factor
of ten per step. -/
def natDigitsGo (acc : List Char) (n : ℕ) : ℕ → List Char
  | 0 => acc
  | fuel + 1 =>
    if n < 10 then decDigit n :: acc
    else natDigitsGo (decDigit n :: acc) (n / 10) fuel

/-- Decimal digits of a natural number, most significant first. -/
def natDigits (n : ℕ) : List Char := natDigitsGo [] n (n + 1)

/-- Rendering of a natural number as a decimal numeral. -/
def natStr (n : ℕ) : String := ⟨natDigits n⟩

/-- Model of JavaScript `Number.prototype.toFixed(2)`: the value rounded
to two decimal places and rendered with exactly two fractional digits. -/
def fixed2 (q : ℚ) : String :=
  let c : ℤ := jsRound (q * 100)
  let m : ℕ := c.natAbs
  (if c < 0 then "-" else "") ++ natStr (m / 100) ++ "." ++ ⟨[decDigit (m % 100 / 10), decDigit m]⟩

/-- Number of occurrences of a character in a string. -/
def countChar (c : Char) (s : String) : ℕ := s.data.count c

theorem decDigit_isDigit (n : ℕ) : (decDigit n).isDigit = true := by
  have h : n % 10 < 10 := Nat.mod_lt _ (by omega)
  unfold decDigit
  interval_cases h' : n % 10 <;> simp [h']

theorem natDigitsGo_digit (fuel : ℕ) : ∀ (acc : List Char) (n : ℕ),
    (∀ c ∈ acc, c.isDigit = true) → ∀ c ∈ natDigitsGo acc n fuel, c.isDigit = true := by
  induction fuel with
  | zero => intro acc n hacc c hc; exact hacc c hc
  | succ fuel ih =>
    intro acc n hacc c hc
    rw [natDigitsGo] at hc
    by_cases h : n < 10
    · rw [if_pos h] at hc
      rcases List.mem_cons.1 hc with h1 | h1
      · rw [h1]; exact decDigit_isDigit n
      · exact hacc c h1
    · rw [if_neg h] at hc
      refine ih (decDigit n :: acc) (n / 10) ?_ c hc
      intro d hd
      rcases List.mem_cons.1 hd with h1 | h1
      · rw [h1]; exact decDigit_isDigit n
      · exact hacc d h1

theorem natDigits_digit (n : ℕ) : ∀ c ∈ natDigits n, c.isDigit = true :=
  natDigitsGo_digit (n + 1) [] n (by intro c hc; cases hc)

theorem countChar_append (c : Char) (s t : String) :
    countChar c (s ++ t) = countChar c s + countChar c t := by
  cases s with
  | mk ds =>
    cases t with
    | mk dt => simp [countChar, String.append, List.count_append]

theorem countChar_eq_zero_of_forall {c : Char} {s : String}
    (h : ∀ d ∈ s.data, d ≠ c) : countChar c s = 0 := by
  simpa [countChar] using List.count_eq_zero.2 (fun hc => (h c hc) rfl)

theorem natStr_count_letter {c : Char} (hc : c.isDigit = false) (n : ℕ) :
    countChar c (natStr n) = 0 := by
  refine countChar_eq_zero_of_forall (fun d hd hdc => ?_)
  have := natDigits_digit n d hd
  rw [hdc] at this
  rw [this] at hc
  cases hc

theorem fixed2_count_letter {c : Char} (hdig : c.isDigit = false)
    (hminus : c ≠ '-') (hdot : c ≠ '.') (q : ℚ) : countChar c (fixed2 q) = 0 := by
  unfold fixed2
  by_cases h : jsRound (q * 100) < 0 <;>
    simp only [h, if_pos, if_neg, not_false_iff] <;>
    rw [countChar_append, countChar_append, countChar_append] <;>
    rw [natStr_count_letter hdig]
  · have h1 : countChar c "-" = 0 := by
      refine countChar_eq_zero_of_forall ?_
      intro d hd
      simp [String.data] at hd
      rw [hd]
      exact fun hrc => hminus hrc.symm
    have h2 : countChar c "." = 0 := by
      refine countChar_eq_zero_of_forall ?_
      intro d hd
      simp [String.data] at hd
      rw [hd]
      exact fun hrc => hdot hrc.symm
    have h3 : countChar c (⟨[decDigit ((jsRound (q * 100)).natAbs % 100 / 10),
        decDigit (jsRound (q * 100)).natAbs]⟩ : String) = 0 := by
      refine countChar_eq_zero_of_forall ?_
      intro d hd
      simp [String.data] at hd
      rcases hd with hd | hd <;> rw [hd] <;> intro hdc <;>
        rw [← hdc] at hdig <;> rw [decDigit_isDigit] at hdig <;> cases hdig
    omega
  · have h2 : countChar c "." = 0 := by
      refine countChar_eq_zero_of_forall ?_
      intro d hd
      simp [String.data] at hd
      rw [hd]
      exact fun hrc => hdot hrc.symm
    have h3 : countChar c (⟨[decDigit ((jsRound (q * 100)).natAbs % 100 / 10),
        decDigit (jsRound (q * 100)).natAbs]⟩ : String) = 0 := by
      refine countChar_eq_zero_of_forall ?_
      intro d hd
      simp [String.data] at hd
      rcases hd with hd | hd <;> rw [hd] <;> intro hdc <;>
        rw [← hdc] at hdig <;> rw [decDigit_isDigit] at hdig <;> cases hdig
    have h1 : countChar c "" = 0 := by rfl
    omega

/-! ## Path Serializer (`utils.js`: `pointsToPathString`,
`pointsToCubicBezierString`) -/

/-- A 2-D point object `{x, y}` as consumed by the path serializer. -/
structure Point where
  x : ℚ
  y : ℚ
deriving DecidableEq

/-- Concatenation of a list of strings, as built by repeated `+=` in the
JavaScript loops. -/
def concatAll : List String → String
  | [] => ""
  | s :: rest => s ++ concatAll rest

/-- Model of `Array.prototype.join(sep)`. -/
def joinSep (sep : String) : List String → String
  | [] => ""
  | [s] => s
  | s :: t :: rest => s ++ sep ++ joinSep sep (t :: rest)

/-- One `L x y` command, from `points.slice(1).map(p => ...)`. -/
def lineToCmd (p : Point) : String := "L " ++ fixed2 p.x ++ " " ++ fixed2 p.y

/-- Tail of a straight-mode path: the `L` commands joined with `' '`. -/
def straightTail (tail : List Point) : String :=
  joinSep " " (tail.map lineToCmd)

/-- Sliding windows of four consecutive points.  The JavaScript loop
`for (let i = 1; i < pts.length - 2; i++)` reads `pts[i-1] .. pts[i+2]`,
i.e. it visits exactly the windows of four consecutive entries of `pts`. -/
def windows4 : List Point → List (Point × Point × Point × Point)
  | a :: b :: c :: d :: rest => (a, b, c, d) :: windows4 (b :: c :: d :: rest)
  | _ => []

/-- One ` C ...` segment of `pointsToCubicBezierString`: Catmull-Rom
tangents scaled by the tension, control points at one third of the
tangent vectors. -/
def cubicSeg (t : ℚ) (w : Point × Point × Point × Point) : String :=
  let p0 := w.1
  let p1 := w.2.1
  let p2 := w.2.2.1
  let p3 := w.2.2.2
  let tx1 := (p2.x - p0.x) * t
  let ty1 := (p2.y - p0.y) * t
  let tx2 := (p3.x - p1.x) * t
  let ty2 := (p3.y - p1.y) * t
  let cp1x := p1.x + tx1 / 3
  let cp1y := p1.y + ty1 / 3
  let cp2x := p2.x - tx2 / 3
  let cp2y := p2.y - ty2 / 3
  " C " ++ fixed2 cp1x ++ " " ++ fixed2 cp1y ++ ", " ++ fixed2 cp2x ++ " " ++
    fixed2 cp2y ++ ", " ++ fixed2 p2.x ++ " " ++ fixed2 p2.y

/-- Model of `pointsToCubicBezierString(points, tension)`: duplicates the
two endpoints (`const pts = [points[0], ...points, points[points.length-1]]`)
and emits one cubic Bezier segment per interior span, accumulated by
`pathSegment +=`. -/
def pointsToCubicBezierString (points : List Point) (tension : ℚ) : String :=
  match points with
  | [] => ""
  | [_] => ""
  | p :: q :: rest =>
    concatAll ((windows4
      (p :: ((p :: q :: rest) ++ [(p :: q :: rest).getLast (by simp)]))).map
      (cubicSeg tension))

/-- Model of `pointsToPathString(points, smoothingType, options, closePath)`.
Fewer than two points yield the empty string; the `d` string starts with a
single `M` command; `"cubic_bezier"` selects Catmull-Rom smoothing;
`"quadratic_bezier"` is an unimplemented placeholder that falls back to
straight `L` commands (after a logged warning); every other mode string hits
the `default` switch case and also emits straight `L` commands.
`splineTension` stands for `options.splineTension` (defaulted to `0.5` by
the callee when absent). -/
def pointsToPathString (points : List Point) (smoothingType : String)
    (splineTension : ℚ) (closePath : Bool) : String :=
  match points with
  | p0 :: p1 :: rest =>
    let d1 := ("M " ++ fixed2 p0.x ++ " " ++ fixed2 p0.y) ++
      (if smoothingType = "cubic_bezier" then
        pointsToCubicBezierString (p0 :: p1 :: rest) splineTension
      else if smoothingType = "quadratic_bezier" then straightTail (p1 :: rest)
      else straightTail (p1 :: rest))
    if closePath then d1 ++ " Z" else d1
  | _ => ""

/-- Collinearity of three points, as used in the specification's
"3 colinear points" scenario. -/
def collinearPts (p q r : Point) : Prop :=
  (q.x - p.x) * (r.y - q.y) = (q.y - p.y) * (r.x - q.x)

theorem countChar_concatAll (c : Char) (l : List String) :
    countChar c (concatAll l) = (l.map (countChar c)).sum := by
  induction l with
  | nil => rfl
  | cons s rest ih => rw [concatAll, countChar_append, ih]; simp

theorem countChar_joinSep (c : Char) (sep : String) (hsep : countChar c sep = 0)
    (l : List String) : countChar c (joinSep sep l) = (l.map (countChar c)).sum := by
  induction l with
  | nil => rfl
  | cons s rest ih =>
    cases rest with
    | nil => simp [joinSep]
    | cons t more =>
      rw [joinSep, countChar_append, countChar_append, hsep, ih]
      simp only [List.map_cons, List.sum_cons]
      omega

theorem windows4_length : ∀ (l : List Point), (windows4 l).length = l.length - 3
  | a :: b :: c :: d :: rest => by
    rw [windows4]
    simp only [List.length_cons]
    rw [windows4_length (b :: c :: d :: rest)]
    simp only [List.length_cons]
    omega
  | [] => rfl
  | [_] => rfl
  | [_, _] => rfl
  | [_, _, _] => rfl

theorem sum_eq_length_of_all_one : ∀ {l : List ℕ}, (∀ x ∈ l, x = 1) → l.sum = l.length := by
  intro l
  induction l with
  | nil => intro _; rfl
  | cons x rest ih =>
    intro h
    rw [List.sum_cons, h x (by simp), ih (fun y hy => h y (by simp [hy]))]
    simp [Nat.add_comm]

theorem countChar_lineToCmd_L (p : Point) : countChar 'L' (lineToCmd p) = 1 := by
  unfold lineToCmd
  rw [countChar_append, countChar_append, countChar_append]
  rw [fixed2_count_letter (by decide) (by decide) (by decide)]
  rw [fixed2_count_letter (by decide) (by decide) (by decide)]
  rfl

theorem countChar_lineToCmd_zero {c : Char} (hdig : c.isDigit = false)
    (hminus : c ≠ '-') (hdot : c ≠ '.') (hL : c ≠ 'L') (hsp : c ≠ ' ')
    (p : Point) : countChar c (lineToCmd p) = 0 := by
  unfold lineToCmd
  rw [countChar_append, countChar_append, countChar_append]
  rw [fixed2_count_letter hdig hminus hdot]
  rw [fixed2_count_letter hdig hminus hdot]
  have h1 : countChar c "L " = 0 := by
    refine countChar_eq_zero_of_forall ?_
    intro d hd
    simp [String.data] at hd
    rcases hd with hd | hd <;> rw [hd] <;> intro he
    · exact hL he.symm
    · exact hsp he.symm
  have h2 : countChar c " " = 0 := by
    refine countChar_eq_zero_of_forall ?_
    intro d hd
    simp [String.data] at hd
    rw [hd]
    intro he
    exact hsp he.symm
  omega

theorem countChar_cubicSeg_C (t : ℚ) (w : Point × Point × Point × Point) :
    countChar 'C' (cubicSeg t w) = 1 := by
  unfold cubicSeg
  simp only
  repeat rw [countChar_append]
  repeat rw [fixed2_count_letter (by decide) (by decide) (by decide)]
  rfl

theorem countChar_cubicSeg_M (t : ℚ) (w : Point × Point × Point × Point) :
    countChar 'M' (cubicSeg t w) = 0 := by
  unfold cubicSeg
  simp only
  repeat rw [countChar_append]
  repeat rw [fixed2_count_letter (by decide) (by decide) (by decide)]
  rfl

theorem countChar_straightTail_zero {c : Char} (hdig : c.isDigit = false)
    (hminus : c ≠ '-') (hdot : c ≠ '.') (hL : c ≠ 'L') (hsp : c ≠ ' ')
    (tail : List Point) : countChar c (straightTail tail) = 0 := by
  unfold straightTail
  rw [countChar_joinSep]
  · rw [List.map_map, List.sum_eq_zero]
    intro x hx
    obtain ⟨p, _, hp⟩ := List.mem_map.1 hx
    rw [← hp]
    exact countChar_lineToCmd_zero hdig hminus hdot hL hsp p
  · refine countChar_eq_zero_of_forall ?_
    intro d hd
    simp [String.data] at hd
    rw [hd]
    intro he
    exact hsp he.symm

theorem countChar_straightTail_L (tail : List Point) :
    countChar 'L' (straightTail tail) = tail.length := by
  unfold straightTail
  rw [countChar_joinSep _ _ (by rfl)]
  rw [List.map_map]
  rw [sum_eq_length_of_all_one]
  · simp
  · intro x hx
    obtain ⟨p, _, hp⟩ := List.mem_map.1 hx
    rw [← hp]
    exact countChar_lineToCmd_L p

theorem countChar_concatAll_map_one {α : Type} {c : Char} {f : α → String}
    (h : ∀ w, countChar c (f w) = 1) : ∀ (l : List α),
    countChar c (concatAll (l.map f)) = l.length
  | [] => rfl
  | w :: rest => by
    rw [List.map_cons, concatAll, countChar_append, h w,
      countChar_concatAll_map_one h rest]
    simp [Nat.add_comm]

theorem countChar_concatAll_map_zero {α : Type} {c : Char} {f : α → String}
    (h : ∀ w, countChar c (f w) = 0) : ∀ (l : List α),
    countChar c (concatAll (l.map f)) = 0
  | [] => rfl
  | w :: rest => by
    rw [List.map_cons, concatAll, countChar_append, h w,
      countChar_concatAll_map_zero h rest]

theorem countChar_cubicString_C (points : List Point) (t : ℚ) :
    countChar 'C' (pointsToCubicBezierString points t) = points.length - 1 := by
  match points with
  | [] => rfl
  | [p] => rfl
  | p :: q :: rest =>
    rw [pointsToCubicBezierString,
      countChar_concatAll_map_one (fun w => countChar_cubicSeg_C t w),
      windows4_length]
    simp

theorem countChar_cubicString_M (points : List Point) (t : ℚ) :
    countChar 'M' (pointsToCubicBezierString points t) = 0 := by
  match points with
  | [] => rfl
  | [p] => rfl
  | p :: q :: rest =>
    rw [pointsToCubicBezierString,
      countChar_concatAll_map_zero (fun w => countChar_cubicSeg_M t w)]

theorem countChar_moveCmd_zero (ch : Char) (hdig : ch.isDigit = false)
    (hminus : ch ≠ '-') (hdot : ch ≠ '.') (hM : ch ≠ 'M') (hsp : ch ≠ ' ')
    (x y : ℚ) : countChar ch ("M " ++ fixed2 x ++ " " ++ fixed2 y) = 0 := by
  rw [countChar_append, countChar_append, countChar_append]
  rw [fixed2_count_letter hdig hminus hdot, fixed2_count_letter hdig hminus hdot]
  have h1 : countChar ch "M " = 0 := by
    refine countChar_eq_zero_of_forall ?_
    intro d hd
    simp [String.data] at hd
    rcases hd with hd | hd <;> rw [hd] <;> intro he
    · exact hM he.symm
    · exact hsp he.symm
  have h2 : countChar ch " " = 0 := by
    refine countChar_eq_zero_of_forall ?_
    intro d hd
    simp [String.data] at hd
    rw [hd]
    intro he
    exact hsp he.symm
  omega

theorem countChar_moveCmd_M (x y : ℚ) :
    countChar 'M' ("M " ++ fixed2 x ++ " " ++ fixed2 y) = 1 := by
  rw [countChar_append, countChar_append, countChar_append]
  rw [fixed2_count_letter (by decide) (by decide) (by decide)]
  rw [fixed2_count_letter (by decide) (by decide) (by decide)]
  rfl

/-- C4: `pointsToPathString` yields the empty string on empty and
single-point input in every mode; straight mode on 3 colinear points emits
exactly two `L` commands; cubic mode (`"cubic_bezier"`) on any input of
`n ≥ 2` points starts with exactly one `M` command and contains exactly
`n − 1` `C` segments. -/
theorem pointsToPathString_spec :
    (∀ mode t c, pointsToPathString [] mode t c = "") ∧
    (∀ p mode t c, pointsToPathString [p] mode t c = "") ∧
    (∀ p q r t c, collinearPts p q r →
      countChar 'L' (pointsToPathString [p, q, r] "straight" t c) = 2) ∧
    (∀ points t, 2 ≤ points.length →
      countChar 'M' (pointsToPathString points "cubic_bezier" t false) = 1 ∧
      (pointsToPathString points "cubic_bezier" t false).data.head? = some 'M' ∧
      countChar 'C' (pointsToPathString points "cubic_bezier" t false) =
        points.length - 1) := by
  refine ⟨fun _ _ _ => rfl, fun _ _ _ _ => rfl, ?_, ?_⟩
  · intro p q r t c _
    have hmove := countChar_moveCmd_zero 'L' (by decide) (by decide) (by decide)
      (by decide) (by decide) p.x p.y
    cases c
    · show countChar 'L'
        (("M " ++ fixed2 p.x ++ " " ++ fixed2 p.y) ++ straightTail [q, r]) = 2
      rw [countChar_append, hmove, countChar_straightTail_L]
      rfl
    · show countChar 'L'
        ((("M " ++ fixed2 p.x ++ " " ++ fixed2 p.y) ++ straightTail [q, r]) ++ " Z") = 2
      rw [countChar_append, countChar_append, hmove, countChar_straightTail_L]
      rfl
  · intro points t hlen
    match points with
    | [] => exact absurd hlen (by simp)
    | [p'] => exact absurd hlen (by simp)
    | p0 :: p1 :: rest =>
      refine ⟨?_, ?_, ?_⟩
      · show countChar 'M' (("M " ++ fixed2 p0.x ++ " " ++ fixed2 p0.y) ++
          pointsToCubicBezierString (p0 :: p1 :: rest) t) = 1
        rw [countChar_append, countChar_moveCmd_M, countChar_cubicString_M]
      · show ((("M " ++ fixed2 p0.x ++ " " ++ fixed2 p0.y) ++
          pointsToCubicBezierString (p0 :: p1 :: rest) t)).data.head? = some 'M'
        rw [String.data_append, String.data_append, String.data_append,
          String.data_append]
        rfl
      · show countChar 'C' (("M " ++ fixed2 p0.x ++ " " ++ fixed2 p0.y) ++
          pointsToCubicBezierString (p0 :: p1 :: rest) t) = (p0 :: p1 :: rest).length - 1
        rw [countChar_append, countChar_cubicString_C,
          countChar_moveCmd_zero 'C' (by decide) (by decide) (by decide) (by decide) (by decide)]
        omega

/-- Witness for `pointsToPathString_spec` at concrete inputs: the origin
plus the points (1,1), (2,2) (collinear), and a four-point cubic input. -/
theorem pointsToPathString_spec_witness :
    countChar 'L' (pointsToPathString [⟨0, 0⟩, ⟨1, 1⟩, ⟨2, 2⟩] "straight" (1/2) false) = 2 ∧
    countChar 'C' (pointsToPathString [⟨0, 0⟩, ⟨1, 1⟩, ⟨2, 0⟩, ⟨3, 1⟩] "cubic_bezier" (1/2) false) = 3 :=
  ⟨pointsToPathString_spec.2.2.1 ⟨0, 0⟩ ⟨1, 1⟩ ⟨2, 2⟩ (1/2) false (by unfold collinearPts; norm_num),
   (pointsToPathString_spec.2.2.2 [⟨0, 0⟩, ⟨1, 1⟩, ⟨2, 0⟩, ⟨3, 1⟩] (1/2) (by decide)).2.2⟩

theorem fixed2_chars (q : ℚ) :
    ∀ d ∈ (fixed2 q).data, d.isDigit = true ∨ d = '-' ∨ d = '.' := by
  intro d hd
  unfold fixed2 at hd
  simp only at hd
  by_cases h : jsRound (q * 100) < 0 <;>
    simp only [h, if_pos, if_neg, not_false_iff] at hd <;>
    rw [String.data_append, String.data_append, String.data_append] at hd <;>
    rcases List.mem_append.1 hd with hd1 | hd1
  · rcases List.mem_append.1 hd1 with hd2 | hd2
    · rcases List.mem_append.1 hd2 with hd3 | hd3
      · simp [String.data] at hd3
        right; left; exact hd3
      · left; exact natDigits_digit _ d hd3
    · simp [String.data] at hd2
      right; right; exact hd2
  · simp [String.data] at hd1
    rcases hd1 with hd1 | hd1 <;> rw [hd1] <;> left <;> exact decDigit_isDigit _
  · rcases List.mem_append.1 hd1 with hd2 | hd2
    · rcases List.mem_append.1 hd2 with hd3 | hd3
      · simp [String.data] at hd3
      · left; exact natDigits_digit _ d hd3
    · simp [String.data] at hd2
      right; right; exact hd2
  · simp [String.data] at hd1
    rcases hd1 with hd1 | hd1 <;> rw [hd1] <;> left <;> exact decDigit_isDigit _

/-- Characters allowed in a well-formed straight-mode path string:
the two command letters, decimal digits, sign, point and blank. -/
def pathChar (d : Char) : Prop :=
  d = 'M' ∨ d = 'L' ∨ d.isDigit = true ∨ d = '-' ∨ d = '.' ∨ d = ' '

theorem lineToCmd_chars (p : Point) : ∀ d ∈ (lineToCmd p).data, pathChar d := by
  intro d hd
  unfold lineToCmd at hd
  rw [String.data_append, String.data_append, String.data_append] at hd
  unfold pathChar
  rcases List.mem_append.1 hd with hd1 | hd1
  · rcases List.mem_append.1 hd1 with hd2 | hd2
    · rcases List.mem_append.1 hd2 with hd3 | hd3
      · simp [String.data] at hd3
        rcases hd3 with h3 | h3 <;> rw [h3] <;> tauto
      · rcases fixed2_chars p.x d hd3 with h | h | h <;> tauto
    · simp [String.data] at hd2
      tauto
  · rcases fixed2_chars p.y d hd1 with h | h | h <;> tauto

theorem joinSep_chars {P : Char → Prop} {sep : String}
    (hsep : ∀ d ∈ sep.data, P d) :
    ∀ (l : List String), (∀ s ∈ l, ∀ d ∈ s.data, P d) →
      ∀ d ∈ (joinSep sep l).data, P d
  | [] => by intro _ d hd; simp [joinSep, String.data] at hd
  | [s] => by
    intro h d hd
    exact h s (by simp) d (by simpa [joinSep] using hd)
  | s :: t :: rest => by
    intro h d hd
    rw [joinSep, String.data_append, String.data_append] at hd
    rcases List.mem_append.1 hd with hd1 | hd1
    · rcases List.mem_append.1 hd1 with hd2 | hd2
      · exact h s (by simp) d hd2
      · exact hsep d hd2
    · exact joinSep_chars hsep (t :: rest)
        (fun u hu => h u (by simp at hu; rcases hu with hu | hu <;> simp [hu])) d hd1

theorem straightTail_chars (tail : List Point) :
    ∀ d ∈ (straightTail tail).data, pathChar d := by
  unfold straightTail
  refine joinSep_chars ?_ _ ?_
  · intro d hd
    simp [String.data] at hd
    unfold pathChar
    tauto
  · intro s hs
    obtain ⟨p, _, hp⟩ := List.mem_map.1 hs
    rw [← hp]
    exact lineToCmd_chars p

theorem moveCmd_chars (x y : ℚ) :
    ∀ d ∈ ("M " ++ fixed2 x ++ " " ++ fixed2 y).data, pathChar d := by
  intro d hd
  rw [String.data_append, String.data_append, String.data_append] at hd
  rcases List.mem_append.1 hd with h | h
  · rcases List.mem_append.1 h with h' | h'
    · rcases List.mem_append.1 h' with h'' | h''
      · simp [String.data] at h''
        unfold pathChar
        rcases h'' with h3 | h3 <;> rw [h3] <;> tauto
      · have := fixed2_chars x d h''
        unfold pathChar
        tauto
    · simp [String.data] at h'
      unfold pathChar
      tauto
  · have := fixed2_chars y d h
    unfold pathChar
    tauto

/-- C10: every smoothing-mode string other than `"cubic_bezier"` and
`"quadratic_bezier"` — including the mode name `"cubic"` — hits the
`default` switch case of `pointsToPathString` and is treated as straight
mode: the output equals the straight-mode output (so cubic smoothing is
selected only by the exact string `"cubic_bezier"`), and with the
close-path flag off it consists only of `M`/`L` commands and numeric
text — the serializer never fails on an unknown mode. -/
theorem pointsToPathString_default_mode :
    ∀ (points : List Point) (mode : String) (t : ℚ) (c : Bool),
      mode ≠ "cubic_bezier" → mode ≠ "quadratic_bezier" →
      pointsToPathString points mode t c = pointsToPathString points "straight" t c ∧
      (∀ d ∈ (pointsToPathString points mode t false).data, pathChar d) := by
  intro points mode t c h1 h2
  rcases points with _ | ⟨p0, _ | ⟨p1, rest⟩⟩
  · exact ⟨rfl, fun d hd => absurd hd (by intro h; cases h)⟩
  · exact ⟨rfl, fun d hd => absurd hd (by intro h; cases h)⟩
  · have hbase : ∀ c' : Bool, pointsToPathString (p0 :: p1 :: rest) mode t c' =
        pointsToPathString (p0 :: p1 :: rest) "straight" t c' := by
      intro c'
      show (let d1 := ("M " ++ fixed2 p0.x ++ " " ++ fixed2 p0.y) ++
          (if mode = "cubic_bezier" then
            pointsToCubicBezierString (p0 :: p1 :: rest) t
          else if mode = "quadratic_bezier" then straightTail (p1 :: rest)
          else straightTail (p1 :: rest))
        if c' then d1 ++ " Z" else d1) = _
      rw [if_neg h1, if_neg h2]
      rfl
    refine ⟨hbase c, ?_⟩
    rw [hbase false]
    show ∀ d ∈ (("M " ++ fixed2 p0.x ++ " " ++ fixed2 p0.y) ++
        straightTail (p1 :: rest)).data, pathChar d
    intro d hd
    rw [String.data_append] at hd
    rcases List.mem_append.1 hd with hd1 | hd1
    · exact moveCmd_chars p0.x p0.y d hd1
    · exact straightTail_chars (p1 :: rest) d hd1

/-- Witness for `pointsToPathString_default_mode`: the mode string
`"cubic"` on a concrete two-point list; the character hypothesis is
discharged at the leading `M` of the concrete output. -/
theorem pointsToPathString_default_mode_witness :
    pointsToPathString [⟨0, 0⟩, ⟨1, 2⟩] "cubic" (1/2) false =
      pointsToPathString [⟨0, 0⟩, ⟨1, 2⟩] "straight" (1/2) false ∧
    pathChar 'M' :=
  ⟨(pointsToPathString_default_mode [⟨0, 0⟩, ⟨1, 2⟩] "cubic" (1/2) false
      (by decide) (by decide)).1,
   (pointsToPathString_default_mode [⟨0, 0⟩, ⟨1, 2⟩] "cubic" (1/2) false
      (by decide) (by decide)).2 'M' (by decide)⟩

/-! ## Recamán sequence (`patterns/Recaman.js`, `generateRecamanPattern`) -/

/-- Number of Recamán terms requested by `generateRecamanPattern`:
`Math.max(10, Math.floor(complexity * 5 + density / 2))`. -/
def recamanNumTerms (complexity density : ℚ) : ℕ :=
  max 10 (jsFloor (complexity * 5 + density / 2)).toNat

/-- One Recamán step: `backward = previousTerm - n`; take it when it is
positive and not yet used, else step forward to `previousTerm + n`. -/
def recamanNext (used : List ℤ) (prev : ℤ) (n : ℕ) : ℤ :=
  let backward := prev - n
  if backward > 0 ∧ backward ∉ used then backward else prev + n

/-- Main loop of the Recamán computation
(`for (let n = 1; n < numTerms; n++) ...`).  `fuel` is the number of
remaining iterations (`numTerms - n`), `seq` mirrors the `sequence`
array, `used` the `usedNumbers` set (as the list of values added to it,
in insertion order), and `prev` is `sequence[n - 1]`.  The loop breaks
after appending a term greater than `1e6`. -/
def recamanGo : ℕ → ℕ → List ℤ → List ℤ → ℤ → List ℤ
  | 0, _, seq, _, _ => seq
  | fuel + 1, n, seq, used, prev =>
    if recamanNext used prev n > 1000000 then seq ++ [recamanNext used prev n]
    else recamanGo fuel (n + 1) (seq ++ [recamanNext used prev n])
      (used ++ [recamanNext used prev n]) (recamanNext used prev n)

/-- Recamán sequence as computed by `generateRecamanPattern`:
`sequence = [0]`, `usedNumbers = {0}`, then the loop above. -/
def recamanSequence (numTerms : ℕ) : List ℤ :=
  recamanGo (numTerms - 1) 1 [0] [0] 0

theorem recamanGo_prefix (fuel : ℕ) : ∀ (n : ℕ) (seq used : List ℤ) (prev : ℤ),
    ∃ t, recamanGo fuel n seq used prev = seq ++ t := by
  induction fuel with
  | zero => intro n seq used prev; exact ⟨[], by simp [recamanGo]⟩
  | succ fuel ih =>
    intro n seq used prev
    rw [recamanGo]
    by_cases hbig : recamanNext used prev n > 1000000
    · rw [if_pos hbig]
      exact ⟨_, rfl⟩
    · rw [if_neg hbig]
      obtain ⟨t, ht⟩ := ih (n + 1) (seq ++ [recamanNext used prev n])
        (used ++ [recamanNext used prev n]) (recamanNext used prev n)
      rw [ht]
      exact ⟨_, by rw [List.append_assoc]⟩

/-- C8: the Recamán generator steps by `a(n) = a(n-1) - n` when that value
is positive and not previously used, else `a(n-1) + n`, starting from
`a(0) = 0`; every requested term count is at least 8 (indeed at least 10),
and for every requested term count of at least 8 the first 8 terms are
`[0, 1, 3, 6, 2, 7, 13, 20]`. -/
theorem recamanSequence_first_eight :
    (∀ complexity density : ℚ, 8 ≤ recamanNumTerms complexity density) ∧
    ∀ numTerms : ℕ, 8 ≤ numTerms →
      (recamanSequence numTerms).take 8 = [0, 1, 3, 6, 2, 7, 13, 20] := by
  refine ⟨fun c d => le_trans (by norm_num) (le_max_left 10 _), ?_⟩
  intro numTerms h
  obtain ⟨k, hk⟩ : ∃ k, numTerms - 1 = k + 7 := ⟨numTerms - 8, by omega⟩
  unfold recamanSequence
  rw [hk]
  rw [recamanGo]
  norm_num [recamanNext]
  rw [recamanGo]
  norm_num [recamanNext]
  rw [recamanGo]
  norm_num [recamanNext]
  rw [recamanGo]
  norm_num [recamanNext]
  rw [recamanGo]
  norm_num [recamanNext]
  rw [recamanGo]
  norm_num [recamanNext]
  rw [recamanGo]
  norm_num [recamanNext]
  obtain ⟨t, ht⟩ := recamanGo_prefix k 8 [0, 1, 3, 6, 2, 7, 13, 20]
    [0, 1, 3, 6, 2, 7, 13, 20] 20
  rw [ht]
  rw [List.take_append_of_le_length (by simp)]
  simp

/-- Witness for `recamanSequence_first_eight` at the concrete request of
10 terms (the smallest value `numTerms` can actually take). -/
theorem recamanSequence_first_eight_witness :
    (recamanSequence 10).take 8 = [0, 1, 3, 6, 2, 7, 13, 20] :=
  recamanSequence_first_eight.2 10 (by norm_num)

/-! ## Layer Compositor parameter decay (`generator.js`, `generateSVG`,
the per-layer `layerOptions` block) -/

/-- Numeric knobs of `GenerationOptions` that the per-layer decay touches. -/
structure LayerKnobs where
  complexity : ℚ
  density : ℚ
  strokeWeight : ℚ
  opacity : ℚ
  scale : ℚ
deriving DecidableEq

/-- Per-layer options copy computed by `generateSVG` for layer index
`layer`: `const layerOptions = { ...options }` followed, for `layer > 0`,
by the five reassignments

```
layerOptions.complexity   = Math.max(1,   options.complexity - layer * 1.5);
layerOptions.density      = Math.max(1,   options.density - layer * 15);
layerOptions.strokeWeight = Math.max(0.1, options.strokeWeight * (1 - layer * 0.25));
layerOptions.opacity      = Math.max(0.1, options.opacity * (1 - layer * 0.2));
layerOptions.scale        =               options.scale * (1 - layer * 0.15);
```
-/
def layerOptionsAt (base : LayerKnobs) (layer : ℕ) : LayerKnobs :=
  if layer > 0 then
    { complexity := max 1 (base.complexity - layer * (3/2))
      density := max 1 (base.density - layer * 15)
      strokeWeight := max (1/10) (base.strokeWeight * (1 - layer * (1/4)))
      opacity := max (1/10) (base.opacity * (1 - layer * (1/5)))
      scale := base.scale * (1 - layer * (3/20)) }
  else base

/-- Counterexample to C6 as stated: the claim asserts that all five decayed
values — including `scale` — are floored at a small positive minimum, but
the `scale` assignment has no `Math.max` floor: at layer index 7 with base
scale 1 the per-layer scale is `1 * (1 - 7 * 0.15) = -0.05 < 0`, below
every positive minimum. -/
theorem layerOptionsAt_scale_negative :
    (layerOptionsAt ⟨5, 50, 2, 1, 1⟩ 7).scale < 0 := by
  norm_num [layerOptionsAt]

/-- C6 (amended): for every layer index `i > 0` the per-layer copy has
`complexity = max 1 (c − 1.5·i)`, `density = max 1 (d − 15·i)`,
`strokeWeight = max 0.1 (sw·(1 − 0.25·i))`, `opacity = max 0.1 (op·(1 − 0.2·i))`
— these four floored at their positive minima (1, 1, 0.1, 0.1) — while
`scale = s·(1 − 0.15·i)` carries no floor (it is zero or negative whenever
`s > 0` and `i ≥ 7`). -/
theorem layerOptionsAt_spec (base : LayerKnobs) (i : ℕ) (hi : 0 < i) :
    (layerOptionsAt base i).complexity = max 1 (base.complexity - i * (3/2)) ∧
    (layerOptionsAt base i).density = max 1 (base.density - i * 15) ∧
    (layerOptionsAt base i).strokeWeight =
      max (1/10) (base.strokeWeight * (1 - i * (1/4))) ∧
    (layerOptionsAt base i).opacity = max (1/10) (base.opacity * (1 - i * (1/5))) ∧
    (layerOptionsAt base i).scale = base.scale * (1 - i * (3/20)) ∧
    1 ≤ (layerOptionsAt base i).complexity ∧
    1 ≤ (layerOptionsAt base i).density ∧
    1/10 ≤ (layerOptionsAt base i).strokeWeight ∧
    1/10 ≤ (layerOptionsAt base i).opacity ∧
    (0 < base.scale → 7 ≤ i → (layerOptionsAt base i).scale ≤ 0) := by
  rw [layerOptionsAt, if_pos hi]
  refine ⟨rfl, rfl, rfl, rfl, rfl, le_max_left _ _, le_max_left _ _,
    le_max_left _ _, le_max_left _ _, ?_⟩
  intro hs hi7
  simp only
  have h1 : (1 : ℚ) - i * (3/20) ≤ 0 := by
    have : (7 : ℚ) ≤ i := by exact_mod_cast hi7
    nlinarith
  nlinarith

/-- Witness for `layerOptionsAt_spec` at layer index 1 over a concrete
base option set. -/
theorem layerOptionsAt_spec_witness :
    (layerOptionsAt ⟨5, 50, 2, 1, 1⟩ 1).complexity = max 1 (5 - 1 * (3/2)) ∧
    1 ≤ (layerOptionsAt ⟨5, 50, 2, 1, 1⟩ 1).complexity :=
  ⟨(layerOptionsAt_spec ⟨5, 50, 2, 1, 1⟩ 1 (by norm_num)).1,
   (layerOptionsAt_spec ⟨5, 50, 2, 1, 1⟩ 1 (by norm_num)).2.2.2.2.2.1⟩

/-! ## Fill & Color Resolver: palette resolution
(`colorUtils.js`, `getColorPalette`) -/

/-- One entry of a palette category: a `{name, hex}` object whose `hex`
field may be missing (`c?.hex` handles both a missing field and a `null`
entry, which we fold into `hex = none`). -/
structure ColorEntry where
  name : String
  hex : Option String
deriving DecidableEq

/-- Extraction `category.map(c => c?.hex).filter(Boolean)`: keep the hex
strings that are present and non-empty (the only falsy string is `""`). -/
def hexListOf (entries : List ColorEntry) : List String :=
  ((entries.map ColorEntry.hex).filterMap id).filter (fun h => h ≠ "")

/-- Validity test `/^#[0-9A-F]{6}$/i`: a `#` followed by exactly six
hexadecimal digits (either case). -/
def isValidHex6 (s : String) : Bool :=
  match s.data with
  | '#' :: rest =>
    rest.length = 6 && rest.all (fun c =>
      c.isDigit || ('A' ≤ c && c ≤ 'F') || ('a' ≤ c && c ≤ 'f'))
  | _ => false

/-- Fallback constants of `getColorPalette`, in source order: the basic
early-return fallback, the six-color fallback of the final `else` (and of
the explicit `'fallback'` palette), the safety fallback for an empty
selection, and the ultimate fallback applied after hex validation. -/
def basicFallback : List String := ["#FF0000", "#00FF00", "#0000FF"]

def sixFallback : List String :=
  ["#FF0000", "#00FF00", "#0000FF", "#FFFF00", "#00FFFF", "#FF00FF"]

def safetyFallback : List String := ["#333333", "#666666", "#999999", "#CCCCCC"]

def ultimateFallback : List String := ["#444444", "#888888", "#BBBBBB"]

/-- Final safety nets of `getColorPalette`: replace an empty selection by
`safetyFallback`, keep only strings matching the hex pattern, and fall
back to `ultimateFallback` if nothing survives. -/
def paletteSafetyNet (sel : List String) : List String :=
  let sel1 := if sel.isEmpty then safetyFallback else sel
  let sel2 := sel1.filter (fun h => isValidHex6 h)
  if sel2.isEmpty then ultimateFallback else sel2

/-- Model of `getColorPalette()`.  `hasDom` stands for the guard on the
cached `#color-category`/`#color-palette` elements; `allColors` is
`state.allColors` as an association list from category name to entry list;
`category` and `paletteName` are the current dropdown values.  The three
randomness-dependent collaborators are passed explicitly: `chooseCat`
abstracts `randomChoice` over the category names, `shuffled` the
`sort(() => 0.5 - secureRandom())` shuffle, and `subsetSize` the
`randomInt(5, Math.min(10, categoryColors.length))` draw.  The `try`
body is total, so the `catch` fallback `['#AA0000', '#00AA00', '#0000AA']`
is unreachable and not modelled. -/
def getColorPalette (hasDom : Bool)
    (allColors : List (String × List ColorEntry))
    (category paletteName : String)
    (chooseCat : List String → Option String)
    (shuffled : List String → List String)
    (subsetSize : ℕ → ℕ) : List String :=
  if !hasDom then basicFallback
  else if allColors.isEmpty then basicFallback
  else
    let sel : List String :=
      if paletteName = "random_palette" then
        match chooseCat (allColors.map Prod.fst) with
        | some cat =>
          match allColors.lookup cat with
          | some entries => hexListOf entries
          | none => []
        | none => []
      else if paletteName = "random_in_category" ∧ category ≠ "random_category" then
        match allColors.lookup category with
        | some entries =>
          let categoryColors := shuffled (hexListOf entries)
          categoryColors.take (subsetSize categoryColors.length)
        | none => []
      else if (allColors.lookup category).isSome then
        hexListOf ((allColors.lookup category).getD [])
      else if paletteName = "fallback" then sixFallback
      else sixFallback
    paletteSafetyNet sel

theorem paletteSafetyNet_sound (sel : List String) :
    paletteSafetyNet sel ≠ [] ∧ ∀ h ∈ paletteSafetyNet sel, isValidHex6 h = true := by
  unfold paletteSafetyNet
  by_cases h2 : ((if sel.isEmpty then safetyFallback else sel).filter
      (fun h => isValidHex6 h)).isEmpty
  · rw [if_pos h2]
    exact ⟨by decide, by decide⟩
  · rw [if_neg h2]
    constructor
    · intro hnil
      rw [hnil] at h2
      exact h2 rfl
    · intro h hh
      exact (List.mem_filter.1 hh).2

/-- C5: palette resolution always returns a non-empty list of strings
matching `#RRGGBB` (six hex digits), for every input — in particular for
an empty color map, for a map missing the requested category, and for a
category whose entries have malformed hex values. -/
theorem getColorPalette_valid (hasDom : Bool)
    (allColors : List (String × List ColorEntry)) (category paletteName : String)
    (chooseCat : List String → Option String) (shuffled : List String → List String)
    (subsetSize : ℕ → ℕ) :
    getColorPalette hasDom allColors category paletteName chooseCat shuffled
        subsetSize ≠ [] ∧
    ∀ h ∈ getColorPalette hasDom allColors category paletteName chooseCat shuffled
        subsetSize, isValidHex6 h = true := by
  unfold getColorPalette
  by_cases h1 : !hasDom
  · rw [if_pos h1]
    exact ⟨by decide, by decide⟩
  · rw [if_neg h1]
    by_cases h2 : allColors.isEmpty
    · rw [if_pos h2]
      exact ⟨by decide, by decide⟩
    · rw [if_neg h2]
      exact paletteSafetyNet_sound _

/-- Witness for `getColorPalette_valid` covering the claim's three
scenarios: an empty map, a map missing the requested category, and a
category with malformed hex entries; the membership hypothesis is
discharged at the concrete colors `#FF0000` and `#444444`. -/
theorem getColorPalette_valid_witness :
    (getColorPalette true [] "blues" "blues" (fun _ => none) id (fun _ => 5) ≠ []) ∧
    isValidHex6 "#FF0000" = true ∧
    (getColorPalette true [("reds", [⟨"r", some "#AA0000"⟩])] "blues" "blues"
      (fun _ => none) id (fun _ => 5) ≠ []) ∧
    (getColorPalette true [("blues", [⟨"b", some "not-a-hex"⟩, ⟨"c", none⟩])]
      "blues" "blues" (fun _ => none) id (fun _ => 5) ≠ []) ∧
    isValidHex6 "#444444" = true :=
  ⟨(getColorPalette_valid true [] "blues" "blues" (fun _ => none) id (fun _ => 5)).1,
   (getColorPalette_valid true [] "blues" "blues" (fun _ => none) id
     (fun _ => 5)).2 "#FF0000" (by decide),
   (getColorPalette_valid true [("reds", [⟨"r", some "#AA0000"⟩])] "blues" "blues"
     (fun _ => none) id (fun _ => 5)).1,
   (getColorPalette_valid true [("blues", [⟨"b", some "not-a-hex"⟩, ⟨"c", none⟩])]
     "blues" "blues" (fun _ => none) id (fun _ => 5)).1,
   (getColorPalette_valid true [("blues", [⟨"b", some "not-a-hex"⟩, ⟨"c", none⟩])]
     "blues" "blues" (fun _ => none) id
     (fun _ => 5)).2 "#444444" (by decide)⟩

/-! ## Rose curve strategy (`patterns/rose.js`, `generateRoseCurvePattern`)

The strategy wired into the generator (`import ... from './patterns/rose.js'`)
derives the petal parameter from `complexity`:
`const n = Math.max(1, Math.round(complexity / 2));` — the fractional
`options.roseNParam` knob read by `getOptions` is not consulted. -/

/-- Options consumed by the rose strategy.  `roseNParam` is carried in
`GenerationOptions` (parsed with `parseFloat`, so fractional) but unused
by the strategy body. -/
structure RoseOptions where
  viewportWidth : ℚ
  viewportHeight : ℚ
  complexity : ℚ
  density : ℚ
  scale : ℚ
  strokeWeight : ℚ
  opacity : ℚ
  strokeColor : String
  roseNParam : ℚ
deriving DecidableEq

/-- Amplitude `a = Math.min(width, height) * 0.4 * scale`. -/
def roseAOf (opts : RoseOptions) : ℚ :=
  min opts.viewportWidth opts.viewportHeight * (2/5) * opts.scale

/-- Petal parameter `n = Math.max(1, Math.round(complexity / 2))`. -/
def roseNOf (opts : RoseOptions) : ℚ :=
  max 1 ((jsRound (opts.complexity / 2) : ℤ) : ℚ)

/-- Step count `Math.max(50, Math.floor(density * 3) + 50)`. -/
def roseStepsOf (opts : RoseOptions) : ℤ :=
  max 50 (jsFloor (opts.density * 3) + 50)

/-- Sample angle `theta = (i / steps) * endAngle` with
`endAngle = Math.PI * 2`; `piQ` models the float constant `Math.PI`. -/
def roseTheta (opts : RoseOptions) (piQ : ℚ) (i : ℕ) : ℚ :=
  ((i : ℚ) / ((roseStepsOf opts : ℤ) : ℚ)) * (piQ * 2)

/-- Result record of the rose strategy (`{ elementCount, pattern, nParam,
amplitude }`, of which the claim uses the element count and `nParam`). -/
structure RoseResult where
  elementCount : ℕ
  nParam : ℚ
deriving DecidableEq

/-- Model of `generateRoseCurvePattern(parent, options, palette)`: samples
`r = a * Math.cos(n * theta)` for `i = 0 .. steps` and converts to
Cartesian coordinates about the viewport center; returns the result
record together with the sampled point list (the single `path` element's
vertices).  `cosF`/`sinF` model `Math.cos`/`Math.sin`.  The unused local
`angleRange` of the source is omitted. -/
def generateRoseCurvePattern (cosF sinF : ℚ → ℚ) (piQ : ℚ)
    (opts : RoseOptions) : RoseResult × List Point :=
  let a := roseAOf opts
  let n := roseNOf opts
  let cx := opts.viewportWidth / 2
  let cy := opts.viewportHeight / 2
  let points := (List.range ((roseStepsOf opts).toNat + 1)).map (fun i =>
    let theta := roseTheta opts piQ i
    let r := a * cosF (n * theta)
    (⟨cx + r * cosF theta, cy + r * sinF theta⟩ : Point))
  (⟨if points.length > 1 then 1 else 0, n⟩, points)

/-- Counterexample to C7 as stated: the strategy never uses a fractional
petal parameter.  With `complexity = 5` and the fractional option
`roseNParam = 5/2`, the `n` actually sampled is `Math.max(1,
Math.round(5 / 2)) = 3`, an integer different from the fractional knob. -/
theorem generateRoseCurvePattern_integer_n :
    (generateRoseCurvePattern (fun _ => 0) (fun _ => 0) 3
      ⟨800, 600, 5, 50, 1, 2, 1, "#000000", 5/2⟩).1.nParam = 3 ∧
    (3 : ℚ) ≠ 5/2 := by
  constructor
  · show roseNOf ⟨800, 600, 5, 50, 1, 2, 1, "#000000", 5/2⟩ = 3
    rw [roseNOf, jsRound, jsFloor_eq_floor]
    norm_num
  · norm_num

/-- C7 (amended): the rose strategy samples the polar curve
`r = a·cos(n·θ)` about the viewport center at steps `θᵢ = (i/steps)·2π`,
but with `n = max(1, round(complexity/2))` — always a positive integer;
fractional values of the petal parameter never occur (the fractional
`roseNParam` option is ignored). -/
theorem generateRoseCurvePattern_spec (cosF sinF : ℚ → ℚ) (piQ : ℚ)
    (opts : RoseOptions) :
    (generateRoseCurvePattern cosF sinF piQ opts).1.nParam = roseNOf opts ∧
    (∃ k : ℤ, roseNOf opts = (k : ℚ) ∧ 1 ≤ k) ∧
    (generateRoseCurvePattern cosF sinF piQ opts).2.length =
      (roseStepsOf opts).toNat + 1 ∧
    ∀ (i : ℕ) (h : i < (generateRoseCurvePattern cosF sinF piQ opts).2.length),
      (generateRoseCurvePattern cosF sinF piQ opts).2.get ⟨i, h⟩ =
        ⟨opts.viewportWidth / 2 +
            roseAOf opts * cosF (roseNOf opts * roseTheta opts piQ i) *
              cosF (roseTheta opts piQ i),
          opts.viewportHeight / 2 +
            roseAOf opts * cosF (roseNOf opts * roseTheta opts piQ i) *
              sinF (roseTheta opts piQ i)⟩ := by
  refine ⟨rfl, ?_, by simp [generateRoseCurvePattern], ?_⟩
  · refine ⟨max 1 (jsRound (opts.complexity / 2)), ?_, le_max_left _ _⟩
    rw [roseNOf]
    push_cast
    rfl
  · intro i h
    simp only [generateRoseCurvePattern, List.get_eq_getElem, List.getElem_map,
      List.getElem_range]

/-- Witness for `generateRoseCurvePattern_spec` on a concrete option set,
sampling the first point of the curve. -/
theorem generateRoseCurvePattern_spec_witness :
    (generateRoseCurvePattern (fun _ => 0) (fun _ => 0) 3
        ⟨800, 600, 5, 50, 1, 2, 1, "#000000", 5/2⟩).2.get
        ⟨0, by simp [generateRoseCurvePattern]⟩ =
      ⟨(800 : ℚ) / 2 + roseAOf ⟨800, 600, 5, 50, 1, 2, 1, "#000000", 5/2⟩ * 0 * 0,
        (600 : ℚ) / 2 + roseAOf ⟨800, 600, 5, 50, 1, 2, 1, "#000000", 5/2⟩ * 0 * 0⟩ := by
  have h := (generateRoseCurvePattern_spec (fun _ => 0) (fun _ => 0) 3
    ⟨800, 600, 5, 50, 1, 2, 1, "#000000", 5/2⟩).2.2.2 0
    (by simp [generateRoseCurvePattern])
  rw [h]

/-! ## Seed & Determinism Controller and randomness-source hygiene
(`generator.js`, `generateSVG`) -/

/-- A randomness source in the host: the value stream behind
`Math.random`.  Both the original (crypto-backed, nondeterministic)
source and the seeded LCG substitute are values of this type. -/
def RandomSource : Type := ℕ → ℚ

/-- LCG step `currentSeed = (currentSeed * 16807) % 2147483647`. -/
def lcgNext (s : ℤ) : ℤ := s * 16807 % 2147483647

/-- Iterated LCG state after `n` steps. -/
def lcgIter (s0 : ℤ) : ℕ → ℤ
  | 0 => s0
  | n + 1 => lcgNext (lcgIter s0 n)

/-- Initial LCG state: `Math.floor(Math.abs(seed)) % 2147483647`, bumped
to 1 when zero. -/
def lcgInit (seed : ℚ) : ℤ :=
  let s := jsFloor (jsAbs seed) % 2147483647
  if s = 0 then 1 else s

/-- The substitute `seededRandom` source installed for one pass: the
`n`-th call returns `(state − 1) / 2146483646` — precisely,
`(currentSeed - 1) / 2147483646` after the `n+1`-st LCG step. -/
def seededRandom (seed : ℚ) : RandomSource :=
  fun n => ((lcgIter (lcgInit seed) (n + 1) - 1 : ℤ) : ℚ) / 2147483646

/-- Simple 32-bit signed wrap-around, as produced by `hash |= 0`. -/
def int32 (n : ℤ) : ℤ := (n + 2 ^ 31) % 2 ^ 32 - 2 ^ 31

/-- Model of `simpleStringHash(str)`: the order-sensitive polynomial hash
`hash = ((hash << 5) - hash) + char` wrapped to 32 bits each step, with
absolute value taken at the end. -/
def simpleStringHash (str : String) : ℤ :=
  |str.data.foldl (fun hash ch => int32 (int32 (hash * 32 - hash) + ch.toNat)) 0|

/-- Engine state visible to the pass shell: the active `Math.random`
source plus the rest of the mutable state (SVG tree, stats, ...),
abstracted as a type parameter. -/
structure PassState (σ : Type) where
  mathRandom : RandomSource
  rest : σ

/-- Model of the control shape of `generateSVG()` around one pass.  The
early returns (`!dom.svg || !dom.defs`, options retrieval failure) leave
the state untouched; otherwise the original `Math.random` is saved, the
seeded substitute installed, the layer loop (`body`) run inside `try`,
exceptions routed to the `catch` handler, and the `finally` block
restores the saved source unconditionally.  `body` and `handler` are the
try-block and catch-block bodies; they may read and even reassign the
active source, which only makes the restoration obligation stronger. -/
def generateSVGShell {σ E : Type} (svgReady : Bool) (options : Option ℚ)
    (body : PassState σ → Except E (PassState σ))
    (handler : E → PassState σ → PassState σ) (s : PassState σ) : PassState σ :=
  if !svgReady then s
  else
    match options with
    | none => s
    | some seed =>
      let originalRandom := s.mathRandom
      let s1 : PassState σ := { s with mathRandom := seededRandom seed }
      let s2 := match body s1 with
        | .ok s' => s'
        | .error e => handler e s1
      { s2 with mathRandom := originalRandom }

/-- C3: after any pass — whether the try body completes normally or
raises — the active randomness source equals the one active before the
pass began: the `finally` block restores the saved `Math.random`
unconditionally, and the early-return paths never install the
substitute. -/
theorem generateSVGShell_restores {σ E : Type} (svgReady : Bool)
    (options : Option ℚ) (body : PassState σ → Except E (PassState σ))
    (handler : E → PassState σ → PassState σ) (s : PassState σ) :
    (generateSVGShell svgReady options body handler s).mathRandom = s.mathRandom := by
  unfold generateSVGShell
  by_cases h : !svgReady
  · rw [if_pos h]
  · rw [if_neg h]
    match options with
    | none => rfl
    | some seed => dsimp only

/-! ## Randomness utilities (`utils.js`)

`secureRandom()` reads `crypto.getRandomValues` when available (the normal
browser situation) and only falls back to `Math.random()` when the crypto
API is missing; `random`, `randomInt` and `randomChoice` all draw through
`secureRandom`.  The crypto source is modelled as a stream `s : ℕ → ℚ` of
draw results with a threaded index: each call consumes the next value. -/

/-- Rendering of an integer as a decimal numeral. -/
def intStr (n : ℤ) : String := (if n < 0 then "-" else "") ++ natStr n.natAbs

/-- Model of `secureRandom()` on the crypto path: one draw from the
crypto stream. -/
def secureRandom (s : RandomSource) (i : ℕ) : ℚ × ℕ := (s i, i + 1)

/-- Model of `random(min, max) = secureRandom() * (max - min) + min`. -/
def random (lo hi : ℚ) (s : RandomSource) (i : ℕ) : ℚ × ℕ :=
  (s i * (hi - lo) + lo, i + 1)

/-- Model of `randomInt(min, max) = Math.floor(random(min, max + 1))`. -/
def randomInt (lo hi : ℚ) (s : RandomSource) (i : ℕ) : ℤ × ℕ :=
  (jsFloor (s i * (hi + 1 - lo) + lo), i + 1)

/-- Model of `randomChoice(array)`: `null` on an empty array (without
consuming a draw), otherwise the entry at `Math.floor(secureRandom() *
array.length)` (`null` — JavaScript `undefined` — if an out-of-range
draw indexes outside the array). -/
def randomChoice (l : List String) (s : RandomSource) (i : ℕ) :
    Option String × ℕ :=
  if l.isEmpty then (none, i)
  else
    let idx := jsFloor (s i * l.length)
    (if idx < 0 then none else l.get? idx.toNat, i + 1)

/-- Model of the JavaScript `x || d` fallback on a nullable string:
`null`/`undefined` and the empty string are falsy. -/
def jsOr (o : Option String) (d : String) : String :=
  match o with
  | some v => if v = "" then d else v
  | none => d

/-- Model of `generateUniqueId(prefix)`: `prefix-Date.now()-randomInt(1000,
9999)`; `now` carries the wall-clock reading. -/
def generateUniqueId (pre : String) (now : ℕ) (s : RandomSource) (i : ℕ) :
    String × ℕ :=
  let (r, i1) := randomInt 1000 9999 s i
  (pre ++ "-" ++ natStr now ++ "-" ++ intStr r, i1)

/-- Runtime errors a modelled JavaScript function can raise. -/
inductive JsError where
  | typeError (msg : String)
deriving DecidableEq

/-! ## Fill & Color Resolver: pattern fills
(`colorUtils.js`, `createPatternFill`) -/

/-- Draws of `createPatternFill` up to and including the shape-type
selection: the `generateUniqueId('pattern')` draw, the `randomInt(8, 25)`
tile size, the 50%-chance background rect (whose branch consumes a
`randomChoice` fill and a `random(0.1, 0.3)` opacity), and
`patternShapeType = randomInt(0, 5)`.  Returns the shape type together
with the next stream index. -/
def patternShapeDraw (palette : List String) (s : RandomSource) (i : ℕ) :
    ℤ × ℕ :=
  let i1 := (randomInt 1000 9999 s i).2
  let i2 := (randomInt 8 25 s i1).2
  let bgDraw := (secureRandom s i2).1
  let i3 := (secureRandom s i2).2
  let i4 := if bgDraw > 1/2 then
      (random (1/10) (3/10) s (randomChoice palette s i3).2).2
    else i3
  randomInt 0 5 s i4

/-- The `strokeColor = randomChoice(palette) || 'grey'` draw. -/
def patternStrokeDraw (palette : List String) (s : RandomSource) (i : ℕ) :
    Option String × ℕ :=
  randomChoice palette s (patternShapeDraw palette s i).2

/-- The `fillColor = randomChoice(palette) || 'lightgrey'` draw. -/
def patternFillDraw (palette : List String) (s : RandomSource) (i : ℕ) :
    Option String × ℕ :=
  randomChoice palette s (patternStrokeDraw palette s i).2

/-- Stream advancement of the `switch (patternShapeType)` arms: extra
draws per shape case (dots: tile radius; lines and diagonals: the
60%-chance second line; checkerboard: none; triangles: the 50%-chance
second triangle with its color re-draw; centered shape: the circle/rect
coin and the size draw). -/
def patternSwitchIndex (palette : List String) (fillColor : String)
    (shapeType : ℤ) (s : RandomSource) (i : ℕ) : ℕ :=
  if shapeType = 0 then (random (3/20) (3/10) s i).2
  else if shapeType = 1 then (secureRandom s i).2
  else if shapeType = 2 then (secureRandom s i).2
  else if shapeType = 3 then i
  else if shapeType = 4 then
    (if (secureRandom s i).1 > 1/2 then
      (randomChoice (palette.filter (fun c => c ≠ fillColor)) s
        (secureRandom s i).2).2
     else (secureRandom s i).2)
  else if shapeType = 5 then (random (3/10) (1/2) s (secureRandom s i).2).2
  else i

/-- Model of `createPatternFill(palette)`.  `hasDefs` is the guard on the
SVG `<defs>` element; `now` feeds the pattern id.  The function returns
the fill reference `url(#pattern-...)` — or raises: `strokeColor` and
`fillColor` are `const` bindings, and when both `randomChoice` draws
produce the same color and the palette has more than one entry, the
source executes `fillColor = randomChoice(...) || fillColor`, whose
right-hand side consumes one more draw before the assignment to the
`const` binding throws a `TypeError`. -/
def createPatternFill (hasDefs : Bool) (palette : List String) (now : ℕ)
    (s : RandomSource) (i : ℕ) : Except JsError (String × ℕ) :=
  if !hasDefs then
    let (c, i1) := randomChoice palette s i
    .ok (jsOr c "lightgrey", i1)
  else if palette.isEmpty then .ok ("lightgrey", i)
  else
    let patternId := (generateUniqueId "pattern" now s i).1
    let shapeType := (patternShapeDraw palette s i).1
    let i5 := (patternShapeDraw palette s i).2
    let strokeColor := jsOr (randomChoice palette s i5).1 "grey"
    let i6 := (randomChoice palette s i5).2
    let fillColor := jsOr (randomChoice palette s i6).1 "lightgrey"
    let i7 := (randomChoice palette s i6).2
    if fillColor = strokeColor ∧ palette.length > 1 then
      .error (.typeError "Assignment to constant variable.")
    else
      let i8 := (random (1/2) (3/2) s i7).2
      .ok ("url(#" ++ patternId ++ ")",
        patternSwitchIndex palette fillColor shapeType s i8)

/-- C9: whenever the two `randomChoice` draws for `strokeColor` and
`fillColor` resolve to the same color over a palette with at least two
entries, `createPatternFill` raises a `TypeError` (reassignment of the
`const` binding `fillColor`) instead of returning a fill reference. -/
theorem createPatternFill_const_reassign (palette : List String)
    (now : ℕ) (s : RandomSource) (i : ℕ)
    (hlen : 1 < palette.length)
    (hsame : jsOr (patternFillDraw palette s i).1 "lightgrey" =
      jsOr (patternStrokeDraw palette s i).1 "grey") :
    createPatternFill true palette now s i =
      .error (.typeError "Assignment to constant variable.") := by
  have hne : palette.isEmpty = false := by
    cases palette with
    | nil => simp at hlen
    | cons a rest => rfl
  unfold createPatternFill
  rw [if_neg (by simp)]
  rw [if_neg (by simp [hne])]
  unfold patternFillDraw patternStrokeDraw at hsame
  dsimp only
  rw [if_pos ⟨hsame, hlen⟩]

/-- Witness for `createPatternFill_const_reassign`: over the two-color
palette `#111111`/`#222222`, the all-zeros crypto stream draws index 0
for both color choices, so the resolver raises instead of producing a
fill value. -/
theorem createPatternFill_const_reassign_witness :
    1 < (["#111111", "#222222"] : List String).length ∧
    createPatternFill true ["#111111", "#222222"] 0 (fun _ => 0) 0 =
      .error (.typeError "Assignment to constant variable.") :=
  ⟨by norm_num,
   createPatternFill_const_reassign ["#111111", "#222222"] 0 (fun _ => 0) 0
     (by norm_num)
     (by
       norm_num [patternFillDraw, patternStrokeDraw, patternShapeDraw,
         randomChoice, randomInt, secureRandom, random, jsFloor_eq_floor, jsOr]
       rw [if_neg (by decide), if_neg (by decide)])⟩

/-! ## Pattern strategies with the 10,000-node safety cap
(`patterns/recursive.js` and `patterns/QuadTree.js`)

Both strategies share the module-level constant
`MAX_RECURSION_SAFETY = 10000` and the global counter
`state.recursionCount`, reset to 0 by each strategy entry point.  The
model threads a state of the counter plus the indices into the two draw
streams (`Math.random` and the crypto stream behind
`secureRandom`/`random`/`randomInt`/`randomChoice`).  The fill resolver
(`getRandomFill`) and the transcendental host functions are collaborators
passed in through an environment record: the fill resolver consumes
crypto draws and may raise (see `createPatternFill`), which the strategy
propagates. -/

def MAX_RECURSION_SAFETY : ℕ := 10000

/-- Global mutable state visible to a strategy: `state.recursionCount`
plus the next indices of the `Math.random` (`mi`) and crypto (`ci`)
draw streams. -/
structure RecState where
  count : ℕ
  mi : ℕ
  ci : ℕ
deriving DecidableEq

/-- Outcome of a strategy call: normal return or a propagating exception;
either way the global state at exit is carried along. -/
inductive JsOut (σ : Type) where
  | ok (st : σ)
  | err (e : JsError) (st : σ)
deriving DecidableEq

/-- Exit state of an outcome. -/
def JsOut.state {σ : Type} : JsOut σ → σ
  | .ok st => st
  | .err _ st => st

/-- Sequencing: an exception short-circuits the rest of the caller. -/
def JsOut.bind {σ : Type} (r : JsOut σ) (f : σ → JsOut σ) : JsOut σ :=
  match r with
  | .ok st => f st
  | .err e st => .err e st

/-- Host collaborators of a pattern strategy: the two randomness streams,
the float constant `Math.PI`, `Math.cos`/`Math.sin`, the fill resolver
(`getRandomFill(palette, options)` with palette and options already
fixed, as a map from crypto-stream index to fill value and next index, or
an exception), and the palette. -/
structure StrategyEnv where
  mathS : RandomSource
  cryptoS : RandomSource
  piQ : ℚ
  cosF : ℚ → ℚ
  sinF : ℚ → ℚ
  fillF : ℕ → Except JsError (String × ℕ)
  palette : List String

/-- Options consumed by the recursive and quadtree strategies. -/
structure StrategyOptions where
  viewportWidth : ℚ
  viewportHeight : ℚ
  complexity : ℚ
  density : ℚ
  maxRecursion : ℤ
  strokeWeight : ℚ
  opacity : ℚ
  scale : ℚ
  strokeColor : String

/-- Region record of `generateQuadtreeNode`. -/
structure Quad where
  x : ℚ
  y : ℚ
  width : ℚ
  height : ℚ
  depth : ℕ

/-- Shape record of `recursiveDraw`. -/
structure ShapeData where
  type : String
  x : ℚ
  y : ℚ
  size : ℚ
  depth : ℕ

/-- Model of `generateQuadtreeNode(parent, quad, maxDepth, options,
palette)`.  The entry guard returns on reaching `maxDepth`, the 10,000
safety cap, or a region under 2px; otherwise the node is counted, a
`Math.random` draw decides subdivision against
`0.4 + 0.3·complexity/10 + 0.3·density/100 − 0.3·depth/maxDepth`; a
subdividing node jitters and clamps the midpoint, recurses into the four
quadrants, and afterwards — when `complexity > 5 && density > 40` — draws
two dividing lines and adds 2 to the counter (with no cap check); a leaf
resolves a fill and draws one of five shape variants (whose geometry
draws are threaded; the emitted element itself does not touch the
counter).  `fuel` only serves structural recursion: every recursive call
deepens by one and the guard stops at `maxDepth`, so
`maxRecursion.toNat` units suffice. -/
def generateQuadtreeNode (env : StrategyEnv) (opts : StrategyOptions) :
    (fuel : ℕ) → Quad → RecState → JsOut RecState
  | 0, _, st => .ok st
  | fuel + 1, quad, st =>
    if (quad.depth : ℤ) ≥ opts.maxRecursion ∨ st.count ≥ MAX_RECURSION_SAFETY ∨
        quad.width < 2 ∨ quad.height < 2 then .ok st
    else
      let st1 : RecState := ⟨st.count + 1, st.mi, st.ci⟩
      let subdivideProb := 2/5 + opts.complexity / 10 * (3/10) +
        opts.density / 100 * (3/10) -
        (quad.depth : ℚ) / (opts.maxRecursion : ℚ) * (3/10)
      let shouldSubdivide := env.mathS st1.mi < subdivideProb
      let st2 : RecState := ⟨st1.count, st1.mi + 1, st1.ci⟩
      if shouldSubdivide then
        let halfWidth := quad.width / 2
        let halfHeight := quad.height / 2
        let midX := quad.x + halfWidth +
          (random (-(halfWidth * (1/10))) (halfWidth * (1/10)) env.cryptoS st2.ci).1
        let midY := quad.y + halfHeight +
          (random (-(halfHeight * (1/10))) (halfHeight * (1/10)) env.cryptoS (st2.ci + 1)).1
        let clampedMidX := max (quad.x + halfWidth * (1/2))
          (min (quad.x + halfWidth * (3/2)) midX)
        let clampedMidY := max (quad.y + halfHeight * (1/2))
          (min (quad.y + halfHeight * (3/2)) midY)
        let st3 : RecState := ⟨st2.count, st2.mi, st2.ci + 2⟩
        ((((generateQuadtreeNode env opts fuel
            ⟨quad.x, quad.y, clampedMidX - quad.x, clampedMidY - quad.y,
              quad.depth + 1⟩ st3).bind
          fun stA => generateQuadtreeNode env opts fuel
            ⟨clampedMidX, quad.y, quad.x + quad.width - clampedMidX,
              clampedMidY - quad.y, quad.depth + 1⟩ stA).bind
          fun stB => generateQuadtreeNode env opts fuel
            ⟨quad.x, clampedMidY, clampedMidX - quad.x,
              quad.y + quad.height - clampedMidY, quad.depth + 1⟩ stB).bind
          fun stC => generateQuadtreeNode env opts fuel
            ⟨clampedMidX, clampedMidY, quad.x + quad.width - clampedMidX,
              quad.y + quad.height - clampedMidY, quad.depth + 1⟩ stC).bind
          fun stD =>
            if opts.complexity > 5 ∧ opts.density > 40 then
              .ok ⟨stD.count + 2, stD.mi, stD.ci⟩
            else .ok stD
      else
        match env.fillF st2.ci with
        | .error e => .err e st2
        | .ok (_fill, ciF) =>
          let leafType := (randomInt 0 4 env.cryptoS ciF).1
          let ciL := (randomInt 0 4 env.cryptoS ciF).2
          let ciEnd :=
            if leafType = 2 then
              (random 0 90 env.cryptoS (random (1/2) 1 env.cryptoS ciL).2).2
            else if leafType = 3 then (randomInt 3 6 env.cryptoS ciL).2
            else if leafType = 4 then
              (randomChoice env.palette env.cryptoS
                (random (env.piQ / 2) (env.piQ * (3/2)) env.cryptoS
                  (random 0 (env.piQ * 2) env.cryptoS ciL).2).2).2
            else ciL
          .ok ⟨st2.count, st2.mi, ciEnd⟩

/-- Model of `generateQuadtreePattern(parent, options, palette)`: resets
`state.recursionCount` to 0 and processes the root quad covering the
viewport; the result record reports `elementCount = state.recursionCount`
at exit (a pass-level exception instead yields the zeroed diagnostic
record, so the counter value bounds the reported count in every case). -/
def generateQuadtreePattern (env : StrategyEnv) (opts : StrategyOptions)
    (st0 : RecState) : JsOut RecState :=
  generateQuadtreeNode env opts opts.maxRecursion.toNat
    ⟨0, 0, opts.viewportWidth, opts.viewportHeight, 0⟩ ⟨0, st0.mi, st0.ci⟩

mutual

/-- Model of `recursiveDraw(parent, shapeData, maxDepth, options,
palette)`: the entry guard stops at `maxDepth` depth or the 10,000 safety
cap; otherwise the node is counted, a fill resolved, the shape drawn (a
`rect` consumes the `rotate(random(-10, 10) ...)` draw), the branching
factor drawn as `randomInt(2, max(2, floor(complexity / 1.5)))`, and —
unless the child size falls under 1px — the children processed in order. -/
def recursiveDraw (env : StrategyEnv) (opts : StrategyOptions) :
    (fuel : ℕ) → ShapeData → RecState → JsOut RecState
  | fuel, shape, st =>
    if (shape.depth : ℤ) ≥ opts.maxRecursion ∨ st.count ≥ MAX_RECURSION_SAFETY then
      .ok st
    else
      match fuel with
      | 0 => .ok st
      | fuel + 1 =>
        let st1 : RecState := ⟨st.count + 1, st.mi, st.ci⟩
        match env.fillF st1.ci with
        | .error e => .err e st1
        | .ok (_fill, ci1) =>
          let ci2 := if shape.type = "circle" then ci1
            else (random (-10) 10 env.cryptoS ci1).2
          let numChildren := (randomInt 2
            (max 2 ((jsFloor (opts.complexity / (3/2)) : ℤ) : ℚ)) env.cryptoS ci2).1
          let ci3 := (randomInt 2
            (max 2 ((jsFloor (opts.complexity / (3/2)) : ℤ) : ℚ)) env.cryptoS ci2).2
          let scaleFactor := max (1/10)
            ((3/5 - (shape.depth : ℚ) * (1/20)) * (opts.density / 150 + 2/5))
          let childSize := shape.size * scaleFactor
          if childSize < 1 then .ok ⟨st1.count, st1.mi, ci3⟩
          else recursiveChildren env opts fuel shape (shape.depth + 1) childSize
            numChildren.toNat numChildren.toNat ⟨st1.count, st1.mi, ci3⟩

/-- Children loop of `recursiveDraw` (`for (let i = 0; i < numChildren;
i++)`): each child draws an angle jitter and a distance factor from the
crypto stream, a type coin from `Math.random` (60% chance of inheriting
the parent type), and recurses.  `remaining` counts the iterations left;
the loop index is `numChildren − remaining`. -/
def recursiveChildren (env : StrategyEnv) (opts : StrategyOptions)
    (fuel : ℕ) (shape : ShapeData) (childDepth : ℕ) (childSize : ℚ)
    (numChildren : ℕ) : (remaining : ℕ) → RecState → JsOut RecState
  | 0, st => .ok st
  | remaining + 1, st =>
    let i := numChildren - (remaining + 1)
    let angle := ((i : ℚ) / (numChildren : ℚ)) * env.piQ * 2 +
      (random (-(3/10)) (3/10) env.cryptoS st.ci).1
    let distance := shape.size * (3/5) *
      (random (7/10) (13/10) env.cryptoS (st.ci + 1)).1
    let childType := if env.mathS st.mi < 3/5 then shape.type
      else if shape.type = "circle" then "rect" else "circle"
    let childX := shape.x + env.cosF angle * distance
    let childY := shape.y + env.sinF angle * distance
    (recursiveDraw env opts fuel
        ⟨childType, childX, childY, childSize, childDepth⟩
        ⟨st.count, st.mi + 1, st.ci + 2⟩).bind
      (recursiveChildren env opts fuel shape childDepth childSize
        numChildren remaining)

end

/-- Model of `generateRecursivePattern(parent, options, palette)`: resets
`state.recursionCount`, draws the centered start position (two crypto
draws) and the initial shape type (one `Math.random` draw), and starts
`recursiveDraw` at depth 0 with size `min(width, height) * 0.4 * scale`. -/
def generateRecursivePattern (env : StrategyEnv) (opts : StrategyOptions)
    (st0 : RecState) : JsOut RecState :=
  let startX := opts.viewportWidth / 2 +
    (random (-(opts.viewportWidth * (1/10))) (opts.viewportWidth * (1/10))
      env.cryptoS st0.ci).1
  let startY := opts.viewportHeight / 2 +
    (random (-(opts.viewportHeight * (1/10))) (opts.viewportHeight * (1/10))
      env.cryptoS (st0.ci + 1)).1
  let ty := if env.mathS st0.mi < 1/2 then "circle" else "rect"
  recursiveDraw env opts opts.maxRecursion.toNat
    ⟨ty, startX, startY,
      min opts.viewportWidth opts.viewportHeight * (2/5) * opts.scale, 0⟩
    ⟨0, st0.mi + 1, st0.ci + 2⟩

theorem quadStep_interval {node : Quad → RecState → JsOut RecState}
    (hnode : ∀ q s, s.count ≤ (node q s).state.count ∧
      (MAX_RECURSION_SAFETY ≤ s.count → node q s = .ok s) ∧
      (s.count < MAX_RECURSION_SAFETY →
        (node q s).state.count ≤ 30000 - 2 * s.count))
    (q : Quad) {c1 : ℕ} (_hc1 : c1 ≤ MAX_RECURSION_SAFETY)
    (s : RecState) (hlo : c1 ≤ s.count) (hhi : s.count ≤ 30000 - 2 * c1) :
    c1 ≤ (node q s).state.count ∧ (node q s).state.count ≤ 30000 - 2 * c1 := by
  obtain ⟨mono, frozen, bound⟩ := hnode q s
  by_cases h : MAX_RECURSION_SAFETY ≤ s.count
  · rw [frozen h]
    exact ⟨hlo, hhi⟩
  · have hcap : s.count < MAX_RECURSION_SAFETY := by omega
    have hb := bound hcap
    have h10 : s.count < 10000 := hcap
    exact ⟨le_trans hlo mono, by omega⟩

theorem bind_interval {c1 B : ℕ} {f : RecState → JsOut RecState}
    (hf : ∀ s, c1 ≤ s.count → s.count ≤ B →
      c1 ≤ (f s).state.count ∧ (f s).state.count ≤ B)
    (r : JsOut RecState) (hlo : c1 ≤ r.state.count) (hhi : r.state.count ≤ B) :
    c1 ≤ (r.bind f).state.count ∧ (r.bind f).state.count ≤ B := by
  cases r with
  | ok s => exact hf s hlo hhi
  | err e s => exact ⟨hlo, hhi⟩

theorem quadSubdivide_bound {node : Quad → RecState → JsOut RecState}
    (hnode : ∀ q s, s.count ≤ (node q s).state.count ∧
      (MAX_RECURSION_SAFETY ≤ s.count → node q s = .ok s) ∧
      (s.count < MAX_RECURSION_SAFETY →
        (node q s).state.count ≤ 30000 - 2 * s.count))
    (q1 q2 q3 q4 : Quad) (final : RecState → JsOut RecState)
    (hfinal : ∀ s', s'.count ≤ (final s').state.count ∧
      (final s').state.count ≤ s'.count + 2)
    (c0 : ℕ) (hc0 : c0 < 10000) (st3 : RecState) (hst3 : st3.count = c0 + 1) :
    c0 ≤ (((((node q1 st3).bind (node q2)).bind (node q3)).bind
        (node q4)).bind final).state.count ∧
    (((((node q1 st3).bind (node q2)).bind (node q3)).bind
        (node q4)).bind final).state.count ≤ 30000 - 2 * c0 := by
  have hc1 : c0 + 1 ≤ MAX_RECURSION_SAFETY := by
    show c0 + 1 ≤ 10000
    omega
  have hstep : ∀ (q : Quad) (s : RecState), c0 + 1 ≤ s.count →
      s.count ≤ 30000 - 2 * (c0 + 1) →
      c0 + 1 ≤ (node q s).state.count ∧
      (node q s).state.count ≤ 30000 - 2 * (c0 + 1) :=
    fun q s hlo hhi => quadStep_interval hnode q hc1 s hlo hhi
  have hA : c0 + 1 ≤ (node q1 st3).state.count ∧
      (node q1 st3).state.count ≤ 30000 - 2 * (c0 + 1) :=
    hstep q1 st3 (by omega) (by omega)
  have hAB := bind_interval (hstep q2) _ hA.1 hA.2
  have hABC := bind_interval (hstep q3) _ hAB.1 hAB.2
  have hABCD := bind_interval (hstep q4) _ hABC.1 hABC.2
  cases hres : (((node q1 st3).bind (node q2)).bind (node q3)).bind (node q4) with
  | ok stD =>
    rw [hres] at hABCD
    simp only [JsOut.state] at hABCD
    simp only [JsOut.bind]
    obtain ⟨hfin1, hfin2⟩ := hfinal stD
    constructor
    · omega
    · omega
  | err e stD =>
    rw [hres] at hABCD
    simp only [JsOut.state] at hABCD ⊢
    simp only [JsOut.bind, JsOut.state]
    omega

theorem quadNode_count_inv (env : StrategyEnv) (opts : StrategyOptions) :
    ∀ (fuel : ℕ) (quad : Quad) (st : RecState),
    st.count ≤ (generateQuadtreeNode env opts fuel quad st).state.count ∧
    (MAX_RECURSION_SAFETY ≤ st.count →
      generateQuadtreeNode env opts fuel quad st = .ok st) ∧
    (st.count < MAX_RECURSION_SAFETY →
      (generateQuadtreeNode env opts fuel quad st).state.count ≤
        30000 - 2 * st.count) := by
  intro fuel
  induction fuel with
  | zero =>
    intro quad st
    refine ⟨le_refl _, fun _ => rfl, fun h => ?_⟩
    show st.count ≤ 30000 - 2 * st.count
    have : st.count < 10000 := h
    omega
  | succ fuel ih =>
    intro quad st
    rw [generateQuadtreeNode]
    by_cases hb : (quad.depth : ℤ) ≥ opts.maxRecursion ∨
        st.count ≥ MAX_RECURSION_SAFETY ∨ quad.width < 2 ∨ quad.height < 2
    · rw [if_pos hb]
      refine ⟨le_refl _, fun _ => rfl, fun h => ?_⟩
      show st.count ≤ 30000 - 2 * st.count
      have : st.count < 10000 := h
      omega
    · rw [if_neg hb]
      have hcap : st.count < MAX_RECURSION_SAFETY := by
        by_contra h
        exact hb (Or.inr (Or.inl (by omega)))
      have hcap10 : st.count < 10000 := hcap
      dsimp only
      by_cases hsub : env.mathS st.mi < 2/5 + opts.complexity / 10 * (3/10) +
          opts.density / 100 * (3/10) -
          (quad.depth : ℚ) / (opts.maxRecursion : ℚ) * (3/10)
      · rw [if_pos hsub]
        have hfin : ∀ s' : RecState,
            s'.count ≤ (if opts.complexity > 5 ∧ opts.density > 40 then
                JsOut.ok (⟨s'.count + 2, s'.mi, s'.ci⟩ : RecState)
              else JsOut.ok s').state.count ∧
            (if opts.complexity > 5 ∧ opts.density > 40 then
                JsOut.ok (⟨s'.count + 2, s'.mi, s'.ci⟩ : RecState)
              else JsOut.ok s').state.count ≤ s'.count + 2 := by
          intro s'
          by_cases hl : opts.complexity > 5 ∧ opts.density > 40
          · rw [if_pos hl]
            simp [JsOut.state]
          · rw [if_neg hl]
            simp [JsOut.state]
        refine ⟨(quadSubdivide_bound (fun q s => ih q s) _ _ _ _
            (fun stD => if opts.complexity > 5 ∧ opts.density > 40 then
              JsOut.ok ⟨stD.count + 2, stD.mi, stD.ci⟩ else JsOut.ok stD)
            hfin st.count hcap10 _ rfl).1,
          fun h => absurd h (by omega),
          fun _ => (quadSubdivide_bound (fun q s => ih q s) _ _ _ _
            (fun stD => if opts.complexity > 5 ∧ opts.density > 40 then
              JsOut.ok ⟨stD.count + 2, stD.mi, stD.ci⟩ else JsOut.ok stD)
            hfin st.count hcap10 _ rfl).2⟩
      · rw [if_neg hsub]
        split
        · rename_i e heq
          refine ⟨by simp [JsOut.state], fun h => absurd h (by omega),
            fun _ => by simp [JsOut.state]; omega⟩
        · rename_i p heq
          refine ⟨by simp [JsOut.state], fun h => absurd h (by omega),
            fun _ => by simp [JsOut.state]; omega⟩


theorem bind_bound {B : ℕ} {f : RecState → JsOut RecState}
    (hf : ∀ s, s.count ≤ B → (f s).state.count ≤ B)
    (r : JsOut RecState) (hr : r.state.count ≤ B) :
    (r.bind f).state.count ≤ B := by
  cases r with
  | ok s => exact hf s hr
  | err e s => exact hr

theorem recursive_count_bound (env : StrategyEnv) (opts : StrategyOptions) :
    ∀ (fuel : ℕ),
    (∀ (shape : ShapeData) (st : RecState), st.count ≤ MAX_RECURSION_SAFETY →
      (recursiveDraw env opts fuel shape st).state.count ≤ MAX_RECURSION_SAFETY) ∧
    (∀ (shape : ShapeData) (childDepth : ℕ) (childSize : ℚ)
       (numChildren remaining : ℕ) (st : RecState),
      st.count ≤ MAX_RECURSION_SAFETY →
      (recursiveChildren env opts fuel shape childDepth childSize numChildren
        remaining st).state.count ≤ MAX_RECURSION_SAFETY) := by
  intro fuel
  induction fuel with
  | zero =>
    have hdraw : ∀ (shape : ShapeData) (st : RecState),
        st.count ≤ MAX_RECURSION_SAFETY →
        (recursiveDraw env opts 0 shape st).state.count ≤ MAX_RECURSION_SAFETY := by
      intro shape st hst
      rw [recursiveDraw]
      by_cases hb : (shape.depth : ℤ) ≥ opts.maxRecursion ∨
          st.count ≥ MAX_RECURSION_SAFETY
      · rw [if_pos hb]
        exact hst
      · rw [if_neg hb]
        exact hst
    refine ⟨hdraw, ?_⟩
    intro shape cd cs nc remaining
    induction remaining with
    | zero =>
      intro st hst
      rw [recursiveChildren]
      exact hst
    | succ r ihr =>
      intro st hst
      rw [recursiveChildren]
      exact bind_bound (fun s hs => ihr s hs) _ (hdraw _ _ hst)
  | succ fuel ih =>
    have hdraw : ∀ (shape : ShapeData) (st : RecState),
        st.count ≤ MAX_RECURSION_SAFETY →
        (recursiveDraw env opts (fuel + 1) shape st).state.count ≤
          MAX_RECURSION_SAFETY := by
      intro shape st hst
      rw [recursiveDraw]
      by_cases hb : (shape.depth : ℤ) ≥ opts.maxRecursion ∨
          st.count ≥ MAX_RECURSION_SAFETY
      · rw [if_pos hb]
        exact hst
      · rw [if_neg hb]
        have hlt : st.count < MAX_RECURSION_SAFETY := by
          by_contra h
          exact hb (Or.inr (by omega))
        dsimp only
        split
        · simp [JsOut.state]
          omega
        · split
          · simp [JsOut.state]
            omega
          · exact ih.2 _ _ _ _ _ _
              (by change st.count + 1 ≤ MAX_RECURSION_SAFETY; omega)
    refine ⟨hdraw, ?_⟩
    intro shape cd cs nc remaining
    induction remaining with
    | zero =>
      intro st hst
      rw [recursiveChildren]
      exact hst
    | succ r ihr =>
      intro st hst
      rw [recursiveChildren]
      exact bind_bound (fun s hs => ihr s hs) _ (hdraw _ _ hst)


/-- C2 (amended): one invocation of the recursive-branching strategy never
reports more than 10,000 elements (every counter increment sits behind the
safety check), while one invocation of the quadtree strategy has its node
entries capped at 10,000 but counts the two per-subdivision dividing lines
after the cap check, so its reported count can exceed 10,000; it never
exceeds 30,000.  Both bounds hold for every option set, palette, fill
resolver and draw streams, whether the pass completes or raises. -/
theorem strategy_safety_cap (env : StrategyEnv) (opts : StrategyOptions)
    (st0 : RecState) :
    (generateRecursivePattern env opts st0).state.count ≤ 10000 ∧
    (generateQuadtreePattern env opts st0).state.count ≤ 30000 := by
  constructor
  · exact (recursive_count_bound env opts opts.maxRecursion.toNat).1 _ _
      (Nat.zero_le _)
  · have h := quadNode_count_inv env opts opts.maxRecursion.toNat
      ⟨0, 0, opts.viewportWidth, opts.viewportHeight, 0⟩ ⟨0, st0.mi, st0.ci⟩
    have hb := h.2.2 (by norm_num [MAX_RECURSION_SAFETY])
    rw [generateQuadtreePattern]
    omega

/-- Counter recurrence of the always-subdividing quadtree run on a square
power-of-two region: a region of side `2^k` returns the counter unchanged
when the cap is hit or the region falls below 2px (`k = 0`), and otherwise
counts the node, runs the four half-size children in order, and counts the
two dividing lines. -/
def quadSim : ℕ → ℕ → ℕ
  | 0, c => c
  | k + 1, c =>
    if 10000 ≤ c then c
    else quadSim k (quadSim k (quadSim k (quadSim k (c + 1)))) + 2

/-- Options of the concrete counterexample run: a 128×128 viewport,
`maxRecursion = 100`, `complexity = 10`, `density = 100`. -/
def quadCEOpts : StrategyOptions := ⟨128, 128, 10, 100, 100, 1, 1, 1, "#000000"⟩

/-- Environment of the concrete counterexample run: the substituted
`Math.random` always returns 0 (forcing subdivision), the crypto stream
always returns 1/2 (making the midpoint jitter vanish), and the fill
resolver — never consulted, as no leaf is reached — returns a solid
color. -/
def quadCEEnv : StrategyEnv :=
  ⟨fun _ => 0, fun _ => 1/2, 3, fun _ => 0, fun _ => 0,
   fun i => .ok ("#111111", i), ["#111111"]⟩

theorem quadCE_rand_zero (a : ℚ) (i : ℕ) :
    (random (-a) a quadCEEnv.cryptoS i).1 = 0 := by
  show (1/2 : ℚ) * (a - -a) + -a = 0
  ring

theorem quadCE_clamp (x w : ℚ) (hw : 0 ≤ w) (i : ℕ) :
    max (x + w * (1/2)) (min (x + w * (3/2))
      (x + w + (random (-(w * (1/10))) (w * (1/10)) quadCEEnv.cryptoS i).1)) =
    x + w := by
  rw [quadCE_rand_zero, add_zero]
  rw [min_eq_right (by linarith), max_eq_right (by linarith)]

theorem quadCE_bridge : ∀ (k fuel : ℕ) (x y : ℚ) (d c mi ci : ℕ),
    k ≤ fuel → d + k ≤ 10 →
    ∃ mi' ci', generateQuadtreeNode quadCEEnv quadCEOpts fuel
      ⟨x, y, 2^k, 2^k, d⟩ ⟨c, mi, ci⟩ = .ok ⟨quadSim k c, mi', ci'⟩ := by
  intro k
  induction k with
  | zero =>
    intro fuel x y d c mi ci hf hd
    refine ⟨mi, ci, ?_⟩
    cases fuel with
    | zero =>
      rw [generateQuadtreeNode, quadSim]
    | succ f =>
      rw [generateQuadtreeNode,
        if_pos (Or.inr (Or.inr (Or.inl (by norm_num)))), quadSim]
  | succ k ihk =>
    intro fuel x y d c mi ci hf hd
    cases fuel with
    | zero => omega
    | succ f =>
      by_cases hc : 10000 ≤ c
      · refine ⟨mi, ci, ?_⟩
        rw [generateQuadtreeNode,
          if_pos (Or.inr (Or.inl (by show c ≥ 10000; omega))),
          quadSim, if_pos hc]
      · have hfk : k ≤ f := by omega
        have hdk : (d + 1) + k ≤ 10 := by omega
        obtain ⟨mi1, ci1, h1⟩ := ihk f x y (d + 1) (c + 1) (mi + 1) (ci + 2) hfk hdk
        obtain ⟨mi2, ci2, h2⟩ := ihk f (x + 2^(k+1)/2) y (d + 1)
          (quadSim k (c + 1)) mi1 ci1 hfk hdk
        obtain ⟨mi3, ci3, h3⟩ := ihk f x (y + 2^(k+1)/2) (d + 1)
          (quadSim k (quadSim k (c + 1))) mi2 ci2 hfk hdk
        obtain ⟨mi4, ci4, h4⟩ := ihk f (x + 2^(k+1)/2) (y + 2^(k+1)/2) (d + 1)
          (quadSim k (quadSim k (quadSim k (c + 1)))) mi3 ci3 hfk hdk
        refine ⟨mi4, ci4, ?_⟩
        rw [generateQuadtreeNode]
        rw [if_neg ?hentry]
        case hentry =>
          push_neg
          refine ⟨?_, ?_, ?_, ?_⟩
          · show (d : ℤ) < quadCEOpts.maxRecursion
            show (d : ℤ) < 100
            omega
          · show c < MAX_RECURSION_SAFETY
            show c < 10000
            omega
          · show (2:ℚ) ≤ (2:ℚ)^(k+1)
            calc (2:ℚ) = 2^1 := by norm_num
            _ ≤ 2^(k+1) := by
              apply pow_le_pow_right₀ (by norm_num)
              omega
          · show (2:ℚ) ≤ (2:ℚ)^(k+1)
            calc (2:ℚ) = 2^1 := by norm_num
            _ ≤ 2^(k+1) := by
              apply pow_le_pow_right₀ (by norm_num)
              omega
        dsimp only
        rw [if_pos ?hprob]
        case hprob =>
          show quadCEEnv.mathS mi < 2/5 + quadCEOpts.complexity / 10 * (3/10) +
            quadCEOpts.density / 100 * (3/10) -
            (d : ℚ) / (quadCEOpts.maxRecursion : ℚ) * (3/10)
          show (0:ℚ) < 2/5 + 10 / 10 * (3/10) + 100 / 100 * (3/10) -
            (d : ℚ) / ((100 : ℤ) : ℚ) * (3/10)
          have hd9 : (d : ℚ) ≤ 9 := by
            have : d ≤ 9 := by omega
            exact_mod_cast this
          push_cast
          nlinarith
        rw [quadCE_clamp x ((2:ℚ)^(k+1)/2) (by positivity),
          quadCE_clamp y ((2:ℚ)^(k+1)/2) (by positivity)]
        rw [show x + (2:ℚ)^(k+1)/2 - x = 2^k from by rw [pow_succ]; ring]
        rw [show y + (2:ℚ)^(k+1)/2 - y = 2^k from by rw [pow_succ]; ring]
        rw [show x + (2:ℚ)^(k+1) - (x + 2^(k+1)/2) = 2^k from by
          rw [pow_succ]; ring]
        rw [show y + (2:ℚ)^(k+1) - (y + 2^(k+1)/2) = 2^k from by
          rw [pow_succ]; ring]
        rw [h1]
        simp only [JsOut.bind]
        rw [h2]
        simp only [JsOut.bind]
        rw [h3]
        simp only [JsOut.bind]
        rw [h4]
        simp only [JsOut.bind]
        rw [if_pos (by constructor <;> norm_num [quadCEOpts])]
        conv_rhs => rw [quadSim]
        rw [if_neg hc]


/-- Counterexample to C2 as stated: on a 128×128 viewport with
`maxRecursion = 100`, `complexity = 10`, `density = 100`, an
always-subdividing `Math.random` and a jitter-free crypto stream, one
quadtree invocation reports 10,014 elements — the two dividing-line
elements per subdivision are counted after the 10,000 safety check, so
the reported element count exceeds 10,000. -/
theorem quadtree_count_exceeds_cap :
    (generateQuadtreePattern quadCEEnv quadCEOpts ⟨0, 0, 0⟩).state.count = 10014 ∧
    10000 < (generateQuadtreePattern quadCEEnv quadCEOpts ⟨0, 0, 0⟩).state.count := by
  have hmain : (generateQuadtreePattern quadCEEnv quadCEOpts
      ⟨0, 0, 0⟩).state.count = 10014 := by
    rw [generateQuadtreePattern]
    have hw : quadCEOpts.viewportWidth = 2^7 := by norm_num [quadCEOpts]
    have hh : quadCEOpts.viewportHeight = 2^7 := by norm_num [quadCEOpts]
    have hm : quadCEOpts.maxRecursion.toNat = 100 := rfl
    rw [hw, hh, hm]
    obtain ⟨mi', ci', h⟩ := quadCE_bridge 7 100 0 0 0 0 0 0 (by omega) (by omega)
    rw [h]
    show quadSim 7 0 = 10014
    decide
  exact ⟨hmain, by rw [hmain]; omega⟩



/-! ## Determinism of a pass (`generator.js` generateSVG seeding + the
bezier strategy of the full `generator.js` variant)

`generateSVG` derives a numeric seed from `options.seedOverride`
(`parseFloat` when numeric, `simpleStringHash` otherwise), installs the
seeded LCG as `Math.random`, and runs the layer loop.  The pattern
strategies, however, draw through `random`/`randomChoice` from
`utils.js`, which delegate to `secureRandom()` — and on the crypto path
(`crypto.getRandomValues` available, the normal browser situation) that
reads the crypto source, not `Math.random`.  The bezier strategy is
modelled below element-for-element; the pass result is the primitive
tree it produces (background rectangle, layer groups, path elements with
their attributes in document order).  JavaScript's default
number-to-string rendering is abstracted as a parameter `numStr`; both
passes of any comparison share it. -/

/-- An attribute value of a produced SVG element: a string or a number. -/
inductive AttrVal where
  | s (v : String)
  | q (v : ℚ)
deriving DecidableEq

/-- One produced SVG element: tag plus attributes in creation order. -/
structure Elem where
  tag : String
  attrs : List (String × AttrVal)
deriving DecidableEq

/-- One layer group `<g id="layer-k" transform="...">` with its children
in creation order. -/
structure LayerGroup where
  attrs : List (String × AttrVal)
  children : List Elem
deriving DecidableEq

/-- The primitive tree one `generateSVG` pass appends to the `<svg>`
root: optional background rectangle, then the layer groups, plus the
aggregated element count. -/
structure BezierPassResult where
  background : Option Elem
  layers : List LayerGroup
  totalElements : ℕ
deriving DecidableEq

/-- The captured-coordinate slice of the global `state` read by the
bezier strategy (`state.capturedX`, `state.capturedY`,
`state.capturedV`). -/
structure CaptureState where
  capturedX : Option ℚ
  capturedY : Option ℚ
  capturedV : Option (Option ℚ × Option ℚ)

/-- The `GenerationOptions` fields read by `generateSVG` and the bezier
strategy. -/
structure GenerationOptions where
  viewportWidth : ℚ
  viewportHeight : ℚ
  complexity : ℚ
  density : ℚ
  repetition : ℚ
  scale : ℚ
  strokeWeight : ℚ
  opacity : ℚ
  strokeColor : String
  bgColor : String
  offsetX : ℚ
  offsetY : ℚ
  globalAngle : ℚ
  layerCount : ℕ
  seedOverride : String

/-- One iteration of the bezier strategy's curve loop: eight coordinate
draws (x1, y1, x2, y2, cx1, cy1, cx2, cy2), captured-coordinate
overrides for start and end, then the `path` element whose attribute
object draws the stroke colour (`randomChoice(palette) || strokeColor`),
the stroke width (`Math.max(0.5, strokeWeight * random(0.5, 2))`) and
the opacity (`opacity * random(0.5, 1)`).  Returns the element and the
next crypto-stream index. -/
def bezierCurveElem (o : GenerationOptions) (cap : CaptureState)
    (palette : List String) (numStr : Rat → String) (s : RandomSource)
    (i : Nat) : Elem × Nat :=
  let r1 := random 0 o.viewportWidth s i
  let r2 := random 0 o.viewportHeight s r1.2
  let r3 := random 0 o.viewportWidth s r2.2
  let r4 := random 0 o.viewportHeight s r3.2
  let r5 := random 0 o.viewportWidth s r4.2
  let r6 := random 0 o.viewportHeight s r5.2
  let r7 := random 0 o.viewportWidth s r6.2
  let r8 := random 0 o.viewportHeight s r7.2
  let startX := cap.capturedX.getD r1.1
  let startY := cap.capturedY.getD r2.1
  let endX := match cap.capturedV with
    | some (some vx, _) => vx
    | _ => r3.1
  let endY := match cap.capturedV with
    | some (_, some vy) => vy
    | _ => r4.1
  let rc := randomChoice palette s r8.2
  let rw := random (1/2) 2 s rc.2
  let ro := random (1/2) 1 s rw.2
  (⟨"path",
    [("d", .s ("M " ++ numStr startX ++ " " ++ numStr startY ++ " C " ++
        numStr r5.1 ++ " " ++ numStr r6.1 ++ ", " ++ numStr r7.1 ++ " " ++
        numStr r8.1 ++ ", " ++ numStr endX ++ " " ++ numStr endY)),
     ("fill", .s "none"),
     ("stroke", .s (jsOr rc.1 o.strokeColor)),
     ("stroke-width", .q (max (1/2) (o.strokeWeight * rw.1))),
     ("opacity", .q (o.opacity * ro.1))]⟩, ro.2)

/-- The bezier strategy's `for (let i = 0; i < numCurves; i++)` loop:
elements in creation order, threading the crypto-stream index. -/
def bezierCurves (o : GenerationOptions) (cap : CaptureState)
    (palette : List String) (numStr : Rat → String) (s : RandomSource) :
    Nat → Nat → List Elem × Nat
  | 0, i => ([], i)
  | n + 1, i =>
    let e := bezierCurveElem o cap palette numStr s i
    let rest := bezierCurves o cap palette numStr s n e.2
    (e.1 :: rest.1, rest.2)

/-- Model of `generateBezierPattern(parent, options, palette)`:
`numCurves = Math.floor(complexity * (density / 100) * 5 * repetition)`
curves appended to the parent, returning the elements, the element
count, and the next crypto-stream index. -/
def generateBezierPattern (o : GenerationOptions) (cap : CaptureState)
    (palette : List String) (numStr : Rat → String) (s : RandomSource)
    (i : Nat) : List Elem × Nat × Nat :=
  let numCurves := (jsFloor (o.complexity * (o.density / 100) * 5 *
    o.repetition)).toNat
  let r := bezierCurves o cap palette numStr s numCurves i
  (r.1, r.1.length, r.2)

/-- The per-layer option decay of `generateSVG` (layer > 0 reduces
complexity, density, strokeWeight, opacity with floors and scale
without one). -/
def bezierLayerOptions (o : GenerationOptions) (layer : Nat) :
    GenerationOptions :=
  if 0 < layer then
    { o with
      complexity := max 1 (o.complexity - layer * (3 / 2)),
      density := max 1 (o.density - layer * 15),
      strokeWeight := max (1 / 10) (o.strokeWeight * (1 - layer * (1 / 4))),
      opacity := max (1 / 10) (o.opacity * (1 - layer * (1 / 5))),
      scale := o.scale * (1 - layer * (3 / 20)) }
  else o

/-- The layer loop of `generateSVG` for the bezier pattern type: one
`<g id="layer-k" transform="rotate(angle, w/2, h/2) translate(k*offsetX,
k*offsetY)">` per layer, filled by the strategy on the per-layer
options; returns the groups, the total element count and the final
crypto-stream index.  First argument: remaining layers; second: current
layer index. -/
def bezierLayers (o : GenerationOptions) (cap : CaptureState)
    (palette : List String) (numStr : Rat → String) (s : RandomSource) :
    Nat → Nat → Nat → List LayerGroup × Nat × Nat
  | 0, _, i => ([], 0, i)
  | r + 1, layer, i =>
    let transform := "rotate(" ++ numStr o.globalAngle ++ ", " ++
      numStr (o.viewportWidth / 2) ++ ", " ++
      numStr (o.viewportHeight / 2) ++ ") translate(" ++
      numStr (layer * o.offsetX) ++ ", " ++ numStr (layer * o.offsetY) ++ ")"
    let res := generateBezierPattern (bezierLayerOptions o layer) cap
      palette numStr s i
    let rest := bezierLayers o cap palette numStr s r (layer + 1) res.2.2
    (⟨[("id", .s ("layer-" ++ natStr layer)),
       ("transform", .s transform)], res.1⟩ :: rest.1,
     res.2.1 + rest.2.1, rest.2.2)

/-- One full `generateSVG` pass with `patternType = 'bezier'`: the
background rectangle when `bgColor` is truthy and not white (case
insensitive), the seed derived from `seedOverride` via `parseFloat`
(else `simpleStringHash`; with no override, the time/cursor seed), and
the layer loop.  The seeded LCG `seededRandom seed` is installed as
`Math.random` for the duration of the pass (and restored by the
`finally` block), but the bezier strategy draws exclusively through
`secureRandom`'s crypto path, so every element is produced from the
crypto stream `cryptoS`.  `parseFloatF` models the `parseFloat` builtin
(`none` for NaN); `timeSeed` the `Date.now()`-based fallback. -/
def generateSVGBezierPass (o : GenerationOptions) (cap : CaptureState)
    (palette : List String) (numStr : Rat → String)
    (parseFloatF : String → Option Rat) (timeSeed : Rat)
    (cryptoS : RandomSource) : BezierPassResult :=
  let background : Option Elem :=
    if o.bgColor ≠ "" ∧ o.bgColor.map Char.toUpper ≠ "#FFFFFF" then
      some ⟨"rect", [("x", .q 0), ("y", .q 0), ("width", .s "100%"),
        ("height", .s "100%"), ("fill", .s o.bgColor)]⟩
    else none
  let seed : Rat :=
    if o.seedOverride ≠ "" then
      match parseFloatF o.seedOverride with
      | some v => v
      | none => (simpleStringHash o.seedOverride : Rat)
    else timeSeed
  let _installed : RandomSource := seededRandom seed
  let res := bezierLayers o cap palette numStr cryptoS o.layerCount 0 0
  { background := background, layers := res.1, totalElements := res.2.1 }

/-- Options for the determinism check: 800×600 viewport, complexity 1,
density 20, repetition 1 (one curve per pass), white background, one
layer, seed override `"42"`. -/
def c1Opts : GenerationOptions :=
  { viewportWidth := 800, viewportHeight := 600, complexity := 1,
    density := 20, repetition := 1, scale := 1, strokeWeight := 1,
    opacity := 1, strokeColor := "#000000", bgColor := "#FFFFFF",
    offsetX := 0, offsetY := 0, globalAngle := 0, layerCount := 1,
    seedOverride := "42" }

/-- No captured coordinates. -/
def c1Cap : CaptureState := ⟨none, none, none⟩

/-- A two-colour palette. -/
def c1Palette : List String := ["#111111", "#222222"]

/-- `parseFloat` on the one string the check feeds it. -/
def c1ParseFloat (str : String) : Option Rat :=
  if str = "42" then some 42 else none

/-- C1: determinism under a fixed non-empty seedOverride fails.  Both
passes run with seedOverride `"42"` (hence the identical seed 42 and the
identical substituted `Math.random`), identical options, palette and
captured state — yet a crypto stream that always yields 0 and one that
always yields 1/2 produce different primitive trees (the first path's
stroke is `#111111` in one pass and `#222222` in the other), because the
strategies draw from `crypto.getRandomValues`, which the seeding does
not control. -/
theorem bezierPass_seed_not_deterministic :
    c1Opts.seedOverride = "42" ∧
    ∀ numStr : Rat → String,
      generateSVGBezierPass c1Opts c1Cap c1Palette numStr c1ParseFloat 0
        (fun _ => 0) ≠
      generateSVGBezierPass c1Opts c1Cap c1Palette numStr c1ParseFloat 0
        (fun _ => 1/2) := by
  refine ⟨rfl, fun numStr h => ?_⟩
  have h' := congrArg (fun r => (((r.layers.headD ⟨[], []⟩).children.headD
    ⟨"", []⟩).attrs.getD 2 ("", AttrVal.s "")).2) h
  simp only [generateSVGBezierPass, bezierLayers, bezierLayerOptions,
    generateBezierPattern, bezierCurves, bezierCurveElem, randomChoice,
    random, jsOr, jsFloor_eq_floor, c1Opts, c1Cap, c1Palette] at h'
  norm_num [bezierCurves, bezierCurveElem, randomChoice, random, jsOr,
    jsFloor_eq_floor] at h'
  exact absurd h' (by decide)

end Jenvek


